import Mathlib

/-!
Verification of the template-version manager, chat-session manager and
prompt-assembly logic of the tiny-magic backend.

The definitions below are shallow embeddings of the controller code:

* `updateTemplateF`, `restoreTemplateF`, `deleteTemplateF`, `resetToDefaultF`
  embed the corresponding methods of `src/controllers/templateController.js`;
* `createChatF`, `updateConversationF` embed the corresponding methods of
  `src/controllers/chatController.js`;
* `replacePlaceholders` / `assembleMessages` embed the placeholder
  substitution and the final-message construction of `processPrompt`.

The relational store is modelled as a list of rows plus a `nextId` counter
(the SERIAL primary key).  `NOW()` / `CURRENT_TIMESTAMP` is passed as an
explicit `now : Nat` argument where the code uses it.  Each operation takes
a failure oracle `fails : Nat → Bool` naming which numbered SQL statement
of its transaction throws; every error exit returns the state that was
committed when the transaction began, which is what the controller's
ROLLBACK in its catch block (and the backend's transaction semantics)
guarantee.  The plain names (`updateTemplate`, …) fix the oracle to
`noFail`.
-/

/-- Error taxonomy of the controllers: 400 validation, 404 not-found,
409 constraint conflict, 500 storage. -/
inductive ApiError where
  | validation
  | notFound
  | conflict
  | storage
deriving DecidableEq, Repr

def noFail : Nat → Bool := fun _ => false

/-! ### Template data model (table `prompt_templates`) -/

structure TemplateRow where
  id : Nat
  username : String
  templateType : String
  content : String
  version : Nat
  isActive : Bool
  created_at : Nat
  updated_at : Nat
deriving DecidableEq, Repr

structure TemplateStore where
  rows : List TemplateRow
  nextId : Nat
deriving DecidableEq, Repr

def emptyTemplateStore : TemplateStore := ⟨[], 1⟩

/-- `validTypes` check of `updateTemplate` / `getTemplate`. -/
def validTemplateTypes : List String :=
  ["conceptMentor", "assessmentPrompt", "defaultTemplateValues"]

/-- `WHERE username = $1 AND template_type = $2`. -/
def isPair (u t : String) (r : TemplateRow) : Bool :=
  r.username == u && r.templateType == t

/-- `... AND is_active = TRUE`. -/
def isPairActive (u t : String) (r : TemplateRow) : Bool :=
  isPair u t r && r.isActive

/-- `... AND is_active = FALSE`. -/
def isPairInactive (u t : String) (r : TemplateRow) : Bool :=
  isPair u t r && !r.isActive

/-- `... AND version = $3`. -/
def hasVersion (u t : String) (v : Nat) (r : TemplateRow) : Bool :=
  isPair u t r && r.version == v

/-- `SELECT COALESCE(MAX(version), 0) FROM prompt_templates WHERE username
    = $1 AND template_type = $2`. -/
def tmplMax (u t : String) (rows : List TemplateRow) : Nat :=
  rows.foldr (fun r m => if isPair u t r then max r.version m else m) 0

/-- `UPDATE ... SET is_active = FALSE WHERE ... AND is_active = TRUE`,
applied to one row. -/
def deactivateRow (u t : String) (r : TemplateRow) : TemplateRow :=
  if isPairActive u t r then { r with isActive := false } else r

/-- `UPDATE ... SET is_active = TRUE WHERE ... AND version = $3`, applied
to one row. -/
def activateRow (u t : String) (v : Nat) (r : TemplateRow) : TemplateRow :=
  if hasVersion u t v r then { r with isActive := true } else r

/-- Result row of `updateTemplate` (`RETURNING id, version, created_at`). -/
structure UpsertResult where
  id : Nat
  version : Nat
  createdAt : Nat
deriving DecidableEq, Repr

/-- `TemplateController.updateTemplate`: validate the body, then in one
transaction read the next version number, delete the inactive versions of
the pair (the constraint workaround), deactivate the active version and
insert the new row.  Statement indices of the transaction: 0 BEGIN,
1 SELECT next version, 2 DELETE inactive, 3 UPDATE deactivate, 4 INSERT,
5 COMMIT. -/
def updateTemplateF (fails : Nat → Bool) (username templateType content : String)
    (now : Nat) (s : TemplateStore) : Except ApiError UpsertResult × TemplateStore :=
  if username = "" ∨ templateType = "" ∨ content = "" then (.error .validation, s)
  else if templateType ∉ validTemplateTypes then (.error .validation, s)
  else if fails 0 then (.error .storage, s)
  else if fails 1 then (.error .storage, s)
  else
    let nextVersion := tmplMax username templateType s.rows + 1
    if fails 2 then (.error .storage, s)
    else
      let rows1 := s.rows.filter (fun r => !isPairInactive username templateType r)
      if fails 3 then (.error .storage, s)
      else
        let rows2 := rows1.map (deactivateRow username templateType)
        if fails 4 then (.error .storage, s)
        else
          let newRow : TemplateRow :=
            ⟨s.nextId, username, templateType, content, nextVersion, true, now, now⟩
          if fails 5 then (.error .storage, s)
          else (.ok ⟨s.nextId, nextVersion, now⟩, ⟨rows2 ++ [newRow], s.nextId + 1⟩)

def updateTemplate (username templateType content : String) (now : Nat)
    (s : TemplateStore) : Except ApiError UpsertResult × TemplateStore :=
  updateTemplateF noFail username templateType content now s

/-- `TemplateController.restoreTemplate`: validate the body, check the
version exists (404 + ROLLBACK otherwise), deactivate the active version
and activate the requested one.  Statement indices: 0 BEGIN, 1 SELECT
check, 2 UPDATE deactivate, 3 UPDATE activate, 4 COMMIT. -/
def restoreTemplateF (fails : Nat → Bool) (username templateType : String)
    (version : Nat) (s : TemplateStore) : Except ApiError Unit × TemplateStore :=
  if username = "" ∨ templateType = "" ∨ version = 0 then (.error .validation, s)
  else if fails 0 then (.error .storage, s)
  else if fails 1 then (.error .storage, s)
  else if (s.rows.filter (hasVersion username templateType version)).isEmpty then
    (.error .notFound, s)
  else if fails 2 then (.error .storage, s)
  else
    let rows1 := s.rows.map (deactivateRow username templateType)
    if fails 3 then (.error .storage, s)
    else if fails 4 then (.error .storage, s)
    else (.ok (), { s with rows := rows1.map (activateRow username templateType version) })

def restoreTemplate (username templateType : String) (version : Nat)
    (s : TemplateStore) : Except ApiError Unit × TemplateStore :=
  restoreTemplateF noFail username templateType version s

/-- Row predicate of the three `deleteTemplate` modes: `deleteAll` first,
else a truthy `version`, else the active row (a `version` of `0` is falsy
in the JS condition and falls through to the active-only mode). -/
def matchesDeleteMode (u t : String) (version : Option Nat) (deleteAll : Bool)
    (r : TemplateRow) : Bool :=
  if deleteAll then isPair u t r
  else
    match version with
    | some v => if v ≠ 0 then hasVersion u t v r else isPairActive u t r
    | none => isPairActive u t r

/-- `TemplateController.deleteTemplate`: one DELETE chosen by mode; a zero
row count rolls back and reports 404.  Statement indices: 0 BEGIN,
1 DELETE, 2 COMMIT. -/
def deleteTemplateF (fails : Nat → Bool) (username templateType : String)
    (version : Option Nat) (deleteAll : Bool) (s : TemplateStore) :
    Except ApiError Nat × TemplateStore :=
  if username = "" ∨ templateType = "" then (.error .validation, s)
  else if fails 0 then (.error .storage, s)
  else if fails 1 then (.error .storage, s)
  else
    let deleted := s.rows.filter (matchesDeleteMode username templateType version deleteAll)
    if deleted.length = 0 then (.error .notFound, s)
    else if fails 2 then (.error .storage, s)
    else (.ok deleted.length,
      { s with rows := s.rows.filter (fun r => !matchesDeleteMode username templateType version deleteAll r) })

def deleteTemplate (username templateType : String) (version : Option Nat)
    (deleteAll : Bool) (s : TemplateStore) : Except ApiError Nat × TemplateStore :=
  deleteTemplateF noFail username templateType version deleteAll s

/-- `TemplateController.resetToDefault`: the default file content is read
before the transaction (`none` models a missing file).  If the user has
rows of the pair: read the next version, deactivate every version, delete
the now-inactive versions below the new one, insert; otherwise just insert
version 1.  Statement indices: 0 BEGIN, 1 SELECT existing, 2 SELECT max,
3 UPDATE deactivate all, 4 DELETE old, 5 INSERT, 6 COMMIT. -/
def resetToDefaultF (fails : Nat → Bool) (username templateType : String)
    (resetFlag : Bool) (defaultContent : Option String) (now : Nat)
    (s : TemplateStore) : Except ApiError UpsertResult × TemplateStore :=
  if resetFlag = false then (.error .validation, s)
  else if username = "" ∨ templateType = "" then (.error .validation, s)
  else if templateType ∉ validTemplateTypes then (.error .validation, s)
  else
    match defaultContent with
    | none => (.error .notFound, s)
    | some content =>
      if fails 0 then (.error .storage, s)
      else if fails 1 then (.error .storage, s)
      else if (s.rows.filter (isPair username templateType)).isEmpty then
        if fails 5 then (.error .storage, s)
        else if fails 6 then (.error .storage, s)
        else (.ok ⟨s.nextId, 1, now⟩,
          ⟨s.rows ++ [⟨s.nextId, username, templateType, content, 1, true, now, now⟩],
           s.nextId + 1⟩)
      else if fails 2 then (.error .storage, s)
      else
        let nextVersion := tmplMax username templateType s.rows + 1
        if fails 3 then (.error .storage, s)
        else
          let rows1 := s.rows.map (fun r =>
            if isPair username templateType r then { r with isActive := false } else r)
          if fails 4 then (.error .storage, s)
          else
            let rows2 := rows1.filter (fun r =>
              !(isPair username templateType r && !r.isActive && decide (r.version < nextVersion)))
            if fails 5 then (.error .storage, s)
            else if fails 6 then (.error .storage, s)
            else (.ok ⟨s.nextId, nextVersion, now⟩,
              ⟨rows2 ++ [⟨s.nextId, username, templateType, content, nextVersion, true, now, now⟩],
               s.nextId + 1⟩)

def resetToDefault (username templateType : String) (resetFlag : Bool)
    (defaultContent : Option String) (now : Nat) (s : TemplateStore) :
    Except ApiError UpsertResult × TemplateStore :=
  resetToDefaultF noFail username templateType resetFlag defaultContent now s

/-! ### Template operation sequences (claim C1) -/

inductive TmplOp where
  | upsert (username templateType content : String) (now : Nat)
  | restore (username templateType : String) (version : Nat)
  | del (username templateType : String) (version : Option Nat) (deleteAll : Bool)

def tmplStep (op : TmplOp) (s : TemplateStore) : TemplateStore :=
  match op with
  | .upsert u t c now => (updateTemplate u t c now s).2
  | .restore u t v => (restoreTemplate u t v s).2
  | .del u t v a => (deleteTemplate u t v a s).2

def runTmplOps (ops : List TmplOp) : TemplateStore :=
  ops.foldl (fun s op => tmplStep op s) emptyTemplateStore

/-- Number of rows of the pair with `is_active = TRUE`. -/
def activeCount (u t : String) (rows : List TemplateRow) : Nat :=
  rows.countP (isPairActive u t)

/-- Number of rows of the pair carrying a given version. -/
def versionCount (u t : String) (v : Nat) (rows : List TemplateRow) : Nat :=
  rows.countP (hasVersion u t v)

/-- A sequence of `updateTemplate` calls on one `(owner, templateType)`
pair, collecting the version numbers returned by the successful calls. -/
def upsertSeq (u t : String) (contents : List String) (now : Nat)
    (s : TemplateStore) : List Nat × TemplateStore :=
  match contents with
  | [] => ([], s)
  | c :: cs =>
    let step := updateTemplate u t c now s
    let rest := upsertSeq u t cs now step.2
    match step.1 with
    | .ok res => (res.version :: rest.1, rest.2)
    | .error _ => rest

/-! ### Chat data model (table `chat`) -/

structure ChatRow where
  id : Nat
  user_id : String
  conversation : List String
  status : String
  created_at : Nat
  updated_at : Nat
deriving DecidableEq, Repr

structure ChatStore where
  rows : List ChatRow
  nextId : Nat
deriving DecidableEq, Repr

def emptyChatStore : ChatStore := ⟨[], 1⟩

/-- `validStatuses` of `createChat` / `updateConversation`. -/
def validChatStatuses : List String :=
  ["paused", "completed", "stopped", "incomplete"]

/-- `status IN ('incomplete', 'paused', 'stopped')`. -/
def isLive (r : ChatRow) : Bool :=
  r.status == "incomplete" || r.status == "paused" || r.status == "stopped"

/-- `finalStatus === 'completed' || finalStatus === 'stopped'`. -/
def isTerminal (st : String) : Bool :=
  st == "completed" || st == "stopped"

/-- `validStatuses.includes(status) ? status : 'incomplete'` (an absent
status is `undefined`, which is also coerced). -/
def coerceStatus (status : Option String) : String :=
  match status with
  | some st => if st ∈ validChatStatuses then st else "incomplete"
  | none => "incomplete"

/-- The archival UPDATE of `createChat`, applied to one row. -/
def archiveIfLive (u : String) (now : Nat) (r : ChatRow) : ChatRow :=
  if r.user_id == u && isLive r then { r with status := "archived", updated_at := now } else r

/-- `ChatController.createChat`: validate, coerce the status, archive every
live row of the user when the final status is terminal, insert the new
row; returns it with the `shouldStartFresh` flag.  Statement indices:
0 BEGIN, 1 UPDATE archive (only issued for a terminal status), 2 INSERT,
3 COMMIT. -/
def createChatF (fails : Nat → Bool) (user_id : String)
    (conversation : Option (List String)) (status : Option String) (now : Nat)
    (s : ChatStore) : Except ApiError (ChatRow × Bool) × ChatStore :=
  match conversation with
  | none => (.error .validation, s)
  | some conv =>
    if user_id = "" then (.error .validation, s)
    else
      let finalStatus := coerceStatus status
      if fails 0 then (.error .storage, s)
      else if isTerminal finalStatus && fails 1 then (.error .storage, s)
      else
        let rows1 := if isTerminal finalStatus
          then s.rows.map (archiveIfLive user_id now) else s.rows
        if fails 2 then (.error .storage, s)
        else
          let newRow : ChatRow := ⟨s.nextId, user_id, conv, finalStatus, now, now⟩
          if fails 3 then (.error .storage, s)
          else (.ok (newRow, isTerminal finalStatus), ⟨rows1 ++ [newRow], s.nextId + 1⟩)

def createChat (user_id : String) (conversation : Option (List String))
    (status : Option String) (now : Nat) (s : ChatStore) :
    Except ApiError (ChatRow × Bool) × ChatStore :=
  createChatF noFail user_id conversation status now s

/-- `ChatController.updateConversation`: coerce the status, look the chat
up (404 + ROLLBACK when absent), archive the *other* live rows of its user
when the final status is terminal, then overwrite conversation, status and
`updated_at` on the target.  Statement indices: 0 BEGIN, 1 SELECT check,
2 UPDATE archive others (only issued for a terminal status), 3 UPDATE
target, 4 COMMIT. -/
def updateConversationF (fails : Nat → Bool) (chat_id : Nat)
    (conversation : Option (List String)) (status : String) (now : Nat)
    (s : ChatStore) : Except ApiError (ChatRow × Bool) × ChatStore :=
  match conversation with
  | none => (.error .validation, s)
  | some conv =>
    let finalStatus := if status ∈ validChatStatuses then status else "incomplete"
    if fails 0 then (.error .storage, s)
    else if fails 1 then (.error .storage, s)
    else
      match s.rows.find? (fun r => r.id == chat_id) with
      | none => (.error .notFound, s)
      | some existingChat =>
        if isTerminal finalStatus && fails 2 then (.error .storage, s)
        else
          let rows1 := if isTerminal finalStatus
            then s.rows.map (fun r =>
              if r.user_id == existingChat.user_id && isLive r && r.id != chat_id
              then { r with status := "archived", updated_at := now } else r)
            else s.rows
          if fails 3 then (.error .storage, s)
          else
            let updatedRow :=
              { existingChat with conversation := conv, status := finalStatus, updated_at := now }
            if fails 4 then (.error .storage, s)
            else (.ok (updatedRow, isTerminal finalStatus),
              { s with rows := rows1.map (fun r =>
                  if r.id == chat_id
                  then { r with conversation := conv, status := finalStatus, updated_at := now }
                  else r) })

def updateConversation (chat_id : Nat) (conversation : Option (List String))
    (status : String) (now : Nat) (s : ChatStore) :
    Except ApiError (ChatRow × Bool) × ChatStore :=
  updateConversationF noFail chat_id conversation status now s

/-- Number of stored sessions of a user in a live status. -/
def chatLiveCount (u : String) (rows : List ChatRow) : Nat :=
  rows.countP (fun r => r.user_id == u && isLive r)

def exOk {ε α : Type} : Except ε α → Bool
  | .ok _ => true
  | .error _ => false

/-! ### Prompt assembly (`replacePlaceholders` and `processPrompt` step 5)

`text.replace(/{{(.*?)}}/g, (_, key) => data[key.trim()] ?? '')`: the
regex engine scans left to right; at a `{{` it lazily takes the shortest
run of characters that are not line terminators followed by `}}` (the
`.` of the pattern matches no ECMAScript LineTerminator), and when no
such close exists it moves on one character.  The captured key is
trimmed and looked up; a missing key substitutes the empty string
(`?? ''`). -/

/-- The four ECMAScript LineTerminator code points, which the regex `.`
never matches: LF, CR, LINE SEPARATOR and PARAGRAPH SEPARATOR. -/
def isJsLineTerminator (c : Char) : Bool :=
  c == '\n' || c == '\r' || c == '\u2028' || c == '\u2029'

/-- Whitespace stripped by JavaScript `String.prototype.trim`: the
ECMAScript WhiteSpace code points (TAB, VT, FF, SPACE, NBSP, ZWNBSP and
the Unicode space separators) together with the LineTerminator code
points. -/
def isJsSpace (c : Char) : Bool :=
  c == '\t' || c == '\x0b' || c == '\x0c' || c == ' ' ||
  c == '\u00a0' || c == '\u1680' ||
  c == '\u2000' || c == '\u2001' || c == '\u2002' || c == '\u2003' ||
  c == '\u2004' || c == '\u2005' || c == '\u2006' || c == '\u2007' ||
  c == '\u2008' || c == '\u2009' || c == '\u200a' ||
  c == '\u202f' || c == '\u205f' || c == '\u3000' || c == '\ufeff' ||
  isJsLineTerminator c

def jsTrim (key : List Char) : List Char :=
  ((key.dropWhile isJsSpace).reverse.dropWhile isJsSpace).reverse

/-- `data[key.trim()] ?? ''`, as a character list. -/
def lookupData (data : String → Option String) (key : List Char) : List Char :=
  ((data (String.mk (jsTrim key))).getD "").data

/-- Lazy search for the closing `}}` of `/{{(.*?)}}/`: returns the key and
the remainder after the close, or `none` when a line terminator or the
end of the input intervenes (the regex `.` matches neither). -/
def findClose : List Char → Option (List Char × List Char)
  | [] => none
  | [_] => none
  | c1 :: c2 :: rest =>
    if c1 = '}' ∧ c2 = '}' then some ([], rest)
    else if isJsLineTerminator c1 then none
    else
      match findClose (c2 :: rest) with
      | some (k, r) => some (c1 :: k, r)
      | none => none

theorem findClose_sub {l : List Char} : ∀ {k r}, findClose l = some (k, r) →
    r.length + 2 ≤ l.length := by
  induction l with
  | nil => intro k r h; simp [findClose] at h
  | cons c1 tl ih =>
    intro k r h
    cases tl with
    | nil => simp [findClose] at h
    | cons c2 rest =>
      rw [findClose] at h
      by_cases h1 : c1 = '}' ∧ c2 = '}'
      · rw [if_pos h1] at h
        simp at h
        obtain ⟨hk, hr⟩ := h
        subst hr
        simp
      · rw [if_neg h1] at h
        by_cases h2 : isJsLineTerminator c1 = true
        · rw [if_pos h2] at h; simp at h
        · rw [if_neg h2] at h
          cases hfc : findClose (c2 :: rest) with
          | none => rw [hfc] at h; simp at h
          | some kr =>
            obtain ⟨k', r'⟩ := kr
            rw [hfc] at h
            simp at h
            obtain ⟨hk, hr⟩ := h
            subst hr
            have := ih hfc
            simp at this ⊢
            omega

/-- One step of the global regex replacement, on character lists. -/
def rpAux (data : String → Option String) (l : List Char) : List Char :=
  match l with
  | [] => []
  | [c] => [c]
  | c1 :: c2 :: rest =>
    if c1 = '{' ∧ c2 = '{' then
      match h2 : findClose rest with
      | some (k, r) => lookupData data k ++ rpAux data r
      | none => c1 :: rpAux data (c2 :: rest)
    else c1 :: rpAux data (c2 :: rest)
termination_by l.length
decreasing_by
  · have := findClose_sub h2
    simp
    omega
  · simp
  · simp

/-- `replacePlaceholders(text, data)` of the template controller. -/
def replacePlaceholders (text : String) (data : String → Option String) : String :=
  String.mk (rpAux data text.data)

/-- One `promptTemplate.json` entry (`{role, content?}`). -/
structure PromptMsg where
  role : String
  content : Option String
deriving DecidableEq, Repr

/-- `const processedUserInput = userInput || ''`. -/
def processedInput (userInput : Option String) : String :=
  match userInput with
  | some si => if si = "" then "" else si
  | none => ""

/-- Step 5 of `processPrompt`: `promptTemplate.map(...)`. -/
def buildFinalMessages (promptTemplate : List PromptMsg)
    (systemContent processedUserInput : String) : List PromptMsg :=
  promptTemplate.map (fun item =>
    if item.role == "system" then { role := item.role, content := some systemContent }
    else if item.role == "user" then { role := item.role, content := some processedUserInput }
    else item)

/-- Steps 3 and 5 of `processPrompt` chained: substitute the placeholders
into the system template and build the final message list. -/
def assembleMessages (promptTemplate : List PromptMsg) (systemContentTemplate : String)
    (userVariables : String → Option String) (userInput : Option String) : List PromptMsg :=
  buildFinalMessages promptTemplate
    (replacePlaceholders systemContentTemplate userVariables)
    (processedInput userInput)

/-! ### Helper lemmas about template rows -/

theorem isPair_mk (u t : String) (r : TemplateRow) :
    isPair u t r = true ↔ r.username = u ∧ r.templateType = t := by
  simp [isPair]

theorem isPairActive_deactivateRow_self (u t : String) (r : TemplateRow) :
    isPairActive u t (deactivateRow u t r) = false := by
  unfold deactivateRow
  by_cases h : isPairActive u t r = true
  · rw [if_pos h]
    simp [isPairActive, isPair]
  · rw [if_neg h]
    simpa using h

theorem isPairActive_deactivateRow_ne (u t u' t' : String)
    (h : ¬(u' = u ∧ t' = t)) (r : TemplateRow) :
    isPairActive u' t' (deactivateRow u t r) = isPairActive u' t' r := by
  unfold deactivateRow
  by_cases hc : isPairActive u t r = true
  · rw [if_pos hc]
    have h1 : r.username = u ∧ r.templateType = t := by
      simp [isPairActive, isPair] at hc
      exact ⟨hc.1.1, hc.1.2⟩
    by_cases hu : u' = u
    · have ht : ¬ t' = t := fun ht => h ⟨hu, ht⟩
      have ht2 : ¬ t = t' := fun hh => ht hh.symm
      simp [isPairActive, isPair, h1.1, h1.2, hu, ht, ht2]
    · have hu2 : ¬ u = u' := fun hh => hu hh.symm
      simp [isPairActive, isPair, h1.1, h1.2, hu, hu2]
  · rw [if_neg hc]

theorem hasVersion_deactivateRow (u t u' t' : String) (v : Nat) (r : TemplateRow) :
    hasVersion u' t' v (deactivateRow u t r) = hasVersion u' t' v r := by
  unfold deactivateRow
  by_cases h : isPairActive u t r = true
  · rw [if_pos h]; simp [hasVersion, isPair]
  · rw [if_neg h]

theorem hasVersion_activateRow (u t u' t' : String) (v v' : Nat) (r : TemplateRow) :
    hasVersion u' t' v' (activateRow u t v r) = hasVersion u' t' v' r := by
  unfold activateRow
  by_cases h : hasVersion u t v r = true
  · rw [if_pos h]; simp [hasVersion, isPair]
  · rw [if_neg h]

theorem isPairActive_activateRow_deactivateRow (u t : String) (v : Nat) (r : TemplateRow) :
    isPairActive u t (activateRow u t v (deactivateRow u t r)) = hasVersion u t v r := by
  have hv : hasVersion u t v (deactivateRow u t r) = hasVersion u t v r :=
    hasVersion_deactivateRow u t u t v r
  unfold activateRow
  by_cases h : hasVersion u t v (deactivateRow u t r) = true
  · rw [if_pos h]
    rw [hv] at h
    have hp : isPair u t r = true := by
      simp [hasVersion] at h; exact h.1
    unfold deactivateRow
    by_cases ha : isPairActive u t r = true
    · rw [if_pos ha]
      simp [isPair] at hp
      simp [isPairActive, isPair, hp.1, hp.2, h]
    · rw [if_neg ha]
      simp [isPair] at hp
      simp [isPairActive, isPair, hp.1, hp.2, h]
  · rw [if_neg h]
    rw [hv] at h
    simp only [Bool.not_eq_true] at h
    rw [isPairActive_deactivateRow_self, h]

theorem isPairActive_activateRow_ne (u t u' t' : String) (v : Nat)
    (h : ¬(u' = u ∧ t' = t)) (r : TemplateRow) :
    isPairActive u' t' (activateRow u t v r) = isPairActive u' t' r := by
  unfold activateRow
  by_cases hc : hasVersion u t v r = true
  · rw [if_pos hc]
    have h1 : r.username = u ∧ r.templateType = t := by
      simp [hasVersion, isPair] at hc
      exact ⟨hc.1.1, hc.1.2⟩
    by_cases hu : u' = u
    · have ht : ¬ t' = t := fun ht => h ⟨hu, ht⟩
      have ht2 : ¬ t = t' := fun hh => ht hh.symm
      simp [isPairActive, isPair, h1.1, h1.2, hu, ht, ht2]
    · have hu2 : ¬ u = u' := fun hh => hu hh.symm
      simp [isPairActive, isPair, h1.1, h1.2, hu, hu2]
  · rw [if_neg hc]

theorem isPair_newRow_ne (u t u' t' c : String) (nid ver ca ua : Nat) (act : Bool)
    (h : ¬(u' = u ∧ t' = t)) :
    isPair u' t' (⟨nid, u, t, c, ver, act, ca, ua⟩ : TemplateRow) = false := by
  by_cases hu : u' = u
  · have ht : ¬ t' = t := fun ht => h ⟨hu, ht⟩
    have ht2 : ¬ t = t' := fun hh => ht hh.symm
    simp [isPair, hu, ht2]
  · have hu2 : ¬ u = u' := fun hh => hu hh.symm
    simp [isPair, hu2]

theorem countP_filter_le {α : Type} (p q : α → Bool) (l : List α) :
    (l.filter q).countP p ≤ l.countP p := by
  rw [List.countP_filter]
  exact List.countP_mono_left (fun a _ h => (Bool.and_eq_true _ _ |>.mp h).1)

theorem tmplMax_cons (u t : String) (a : TemplateRow) (l : List TemplateRow) :
    tmplMax u t (a :: l) =
      if isPair u t a then max a.version (tmplMax u t l) else tmplMax u t l := by
  simp [tmplMax]

theorem tmplMax_ge {u t : String} {rows : List TemplateRow} {r : TemplateRow}
    (hr : r ∈ rows) (hp : isPair u t r = true) : r.version ≤ tmplMax u t rows := by
  induction rows with
  | nil => cases hr
  | cons a l ih =>
    rw [tmplMax_cons]
    rcases List.mem_cons.mp hr with rfl | hmem
    · rw [if_pos hp]; exact Nat.le_max_left _ _
    · by_cases ha : isPair u t a = true
      · rw [if_pos ha]; exact Nat.le_trans (ih hmem) (Nat.le_max_right _ _)
      · rw [if_neg ha]; exact ih hmem

/-- No row of the pair carries a version above the recorded maximum, so the
freshly computed `max + 1` is unused. -/
theorem versionCount_succ_max (u t : String) (rows : List TemplateRow) :
    versionCount u t (tmplMax u t rows + 1) rows = 0 := by
  rw [versionCount]
  refine List.countP_eq_zero.mpr (fun r hr hcontra => ?_)
  simp [hasVersion] at hcontra
  have := tmplMax_ge hr hcontra.1
  omega

/-- The single-active and unique-version invariant of the template table. -/
def TmplInv (rows : List TemplateRow) : Prop :=
  ∀ u t, activeCount u t rows ≤ 1 ∧ ∀ v, versionCount u t v rows ≤ 1

theorem updateTemplate_state (u t c : String) (now : Nat) (s : TemplateStore) :
    (updateTemplate u t c now s).2 = s ∨
    (updateTemplate u t c now s).2 =
      ⟨((s.rows.filter (fun r => !isPairInactive u t r)).map (deactivateRow u t))
        ++ [⟨s.nextId, u, t, c, tmplMax u t s.rows + 1, true, now, now⟩],
       s.nextId + 1⟩ := by
  rw [updateTemplate, updateTemplateF]
  by_cases h1 : u = "" ∨ t = "" ∨ c = ""
  · left; simp [h1]
  · by_cases h2 : t ∉ validTemplateTypes
    · left; simp [h1, h2]
    · right; simp [noFail, h1, h2]

theorem restoreTemplate_state (u t : String) (v : Nat) (s : TemplateStore) :
    (restoreTemplate u t v s).2 = s ∨
    (restoreTemplate u t v s).2 =
      { s with rows := (s.rows.map (deactivateRow u t)).map (activateRow u t v) } := by
  rw [restoreTemplate, restoreTemplateF]
  by_cases h1 : u = "" ∨ t = "" ∨ v = 0
  · left; simp [h1]
  · by_cases h2 : (s.rows.filter (hasVersion u t v)).isEmpty = true
    · left; simp [noFail, h1, h2]
    · right; simp [noFail, h1, h2]

theorem deleteTemplate_state (u t : String) (ver : Option Nat) (da : Bool)
    (s : TemplateStore) :
    (deleteTemplate u t ver da s).2 = s ∨
    (deleteTemplate u t ver da s).2 =
      { s with rows := s.rows.filter (fun r => !matchesDeleteMode u t ver da r) } := by
  rw [deleteTemplate, deleteTemplateF]
  by_cases h1 : u = "" ∨ t = ""
  · left; simp [h1]
  · by_cases h2 : (s.rows.filter (matchesDeleteMode u t ver da)).length = 0
    · left; simp [noFail, h1, h2]
    · right; simp [noFail, h1, h2]

theorem TmplInv_upsert (u t c : String) (nid now : Nat) (rows : List TemplateRow)
    (h : TmplInv rows) :
    TmplInv (((rows.filter (fun r => !isPairInactive u t r)).map (deactivateRow u t))
      ++ [⟨nid, u, t, c, tmplMax u t rows + 1, true, now, now⟩]) := by
  intro u' t'
  constructor
  · rw [activeCount, List.countP_append, List.countP_map]
    by_cases hp : u' = u ∧ t' = t
    · obtain ⟨rfl, rfl⟩ := hp
      have hz : (rows.filter (fun r => !isPairInactive u' t' r)).countP
          (isPairActive u' t' ∘ deactivateRow u' t') = 0 :=
        List.countP_eq_zero.mpr (fun a _ hc => by
          simp [Function.comp, isPairActive_deactivateRow_self] at hc)
      rw [hz]
      simp [isPairActive, isPair]
    · have hnew : isPairActive u' t'
          (⟨nid, u, t, c, tmplMax u t rows + 1, true, now, now⟩ : TemplateRow) = false := by
        rw [isPairActive, isPair_newRow_ne u t u' t' c nid _ _ _ _ hp]
        rfl
      have hcong : (rows.filter (fun r => !isPairInactive u t r)).countP
            (isPairActive u' t' ∘ deactivateRow u t)
          = (rows.filter (fun r => !isPairInactive u t r)).countP (isPairActive u' t') :=
        List.countP_congr (fun a _ => by
          simp [Function.comp, isPairActive_deactivateRow_ne u t u' t' hp])
      rw [hcong]
      have hle := countP_filter_le (isPairActive u' t') (fun r => !isPairInactive u t r) rows
      have h1 := (h u' t').1
      rw [activeCount] at h1
      simp [hnew]
      omega
  · intro v
    rw [versionCount, List.countP_append, List.countP_map]
    have hcong : (rows.filter (fun r => !isPairInactive u t r)).countP
          (hasVersion u' t' v ∘ deactivateRow u t)
        = (rows.filter (fun r => !isPairInactive u t r)).countP (hasVersion u' t' v) :=
      List.countP_congr (fun a _ => by
        simp [Function.comp, hasVersion_deactivateRow])
    rw [hcong]
    have hle := countP_filter_le (hasVersion u' t' v) (fun r => !isPairInactive u t r) rows
    by_cases hp : u' = u ∧ t' = t
    · obtain ⟨rfl, rfl⟩ := hp
      by_cases hv : v = tmplMax u' t' rows + 1
      · subst hv
        have hz := versionCount_succ_max u' t' rows
        rw [versionCount] at hz
        have hnew : hasVersion u' t' (tmplMax u' t' rows + 1)
            (⟨nid, u', t', c, tmplMax u' t' rows + 1, true, now, now⟩ : TemplateRow) = true := by
          simp [hasVersion, isPair]
        rw [List.countP_singleton, if_pos hnew]
        omega
      · have hnew : hasVersion u' t' v
            (⟨nid, u', t', c, tmplMax u' t' rows + 1, true, now, now⟩ : TemplateRow) = false := by
          have : ¬ (tmplMax u' t' rows + 1 = v) := fun hh => hv hh.symm
          simp [hasVersion, isPair, this]
        have h1 := (h u' t').2 v
        rw [versionCount] at h1
        rw [List.countP_singleton, if_neg (by simp [hnew])]
        omega
    · have hnew : hasVersion u' t' v
          (⟨nid, u, t, c, tmplMax u t rows + 1, true, now, now⟩ : TemplateRow) = false := by
        rw [hasVersion, isPair_newRow_ne u t u' t' c nid _ _ _ _ hp]
        rfl
      have h1 := (h u' t').2 v
      rw [versionCount] at h1
      simp [hnew]
      omega

theorem TmplInv_restore (u t : String) (v : Nat) (rows : List TemplateRow)
    (h : TmplInv rows) :
    TmplInv ((rows.map (deactivateRow u t)).map (activateRow u t v)) := by
  intro u' t'
  constructor
  · rw [activeCount, List.countP_map, List.countP_map]
    by_cases hp : u' = u ∧ t' = t
    · obtain ⟨rfl, rfl⟩ := hp
      have hcong : rows.countP ((isPairActive u' t' ∘ activateRow u' t' v) ∘ deactivateRow u' t')
          = rows.countP (hasVersion u' t' v) :=
        List.countP_congr (fun a _ => by
          simp [Function.comp, isPairActive_activateRow_deactivateRow])
      rw [hcong]
      have h1 := (h u' t').2 v
      rw [versionCount] at h1
      exact h1
    · have hcong : rows.countP ((isPairActive u' t' ∘ activateRow u t v) ∘ deactivateRow u t)
          = rows.countP (isPairActive u' t') :=
        List.countP_congr (fun a _ => by
          simp [Function.comp, isPairActive_activateRow_ne u t u' t' v hp,
            isPairActive_deactivateRow_ne u t u' t' hp])
      rw [hcong]
      have h1 := (h u' t').1
      rw [activeCount] at h1
      exact h1
  · intro w
    rw [versionCount, List.countP_map, List.countP_map]
    have hcong : rows.countP ((hasVersion u' t' w ∘ activateRow u t v) ∘ deactivateRow u t)
        = rows.countP (hasVersion u' t' w) :=
      List.countP_congr (fun a _ => by
        simp [Function.comp, hasVersion_activateRow, hasVersion_deactivateRow])
    rw [hcong]
    have h1 := (h u' t').2 w
    rw [versionCount] at h1
    exact h1

theorem TmplInv_delete (p : TemplateRow → Bool) (rows : List TemplateRow)
    (h : TmplInv rows) : TmplInv (rows.filter p) := by
  intro u' t'
  refine ⟨Nat.le_trans (countP_filter_le _ _ _) (h u' t').1,
    fun v => Nat.le_trans (countP_filter_le _ _ _) ((h u' t').2 v)⟩

theorem tmplStep_inv (op : TmplOp) (s : TemplateStore) (h : TmplInv s.rows) :
    TmplInv (tmplStep op s).rows := by
  cases op with
  | upsert u t c now =>
    rcases updateTemplate_state u t c now s with hs | hs
    · rw [tmplStep, hs]; exact h
    · rw [tmplStep, hs]; exact TmplInv_upsert u t c s.nextId now s.rows h
  | restore u t v =>
    rcases restoreTemplate_state u t v s with hs | hs
    · rw [tmplStep, hs]; exact h
    · rw [tmplStep, hs]; exact TmplInv_restore u t v s.rows h
  | del u t ver da =>
    rcases deleteTemplate_state u t ver da s with hs | hs
    · rw [tmplStep, hs]; exact h
    · rw [tmplStep, hs]; exact TmplInv_delete _ s.rows h

theorem runTmplOps_inv (ops : List TmplOp) :
    ∀ s : TemplateStore, TmplInv s.rows →
      TmplInv (ops.foldl (fun s op => tmplStep op s) s).rows := by
  induction ops with
  | nil => intro s h; exact h
  | cons op ops ih =>
    intro s h
    exact ih (tmplStep op s) (tmplStep_inv op s h)

/-- C1: for every `(owner, templateType)` pair, after any sequence of upsert
(`updateTemplate`), restore (`restoreTemplate`) and delete
(`deleteTemplate`) operations starting from an empty store, at most one
stored template row has `isActive = true`. -/
theorem template_single_active_invariant (ops : List TmplOp) (u t : String) :
    activeCount u t (runTmplOps ops).rows ≤ 1 := by
  have hempty : TmplInv emptyTemplateStore.rows := by
    intro u' t'
    simp [emptyTemplateStore, activeCount, versionCount]
  exact (runTmplOps_inv ops emptyTemplateStore hempty u t).1

/-! ### Version monotonicity of upsert (claim C4) -/

theorem isPair_deactivateRow (u t u' t' : String) (r : TemplateRow) :
    isPair u' t' (deactivateRow u t r) = isPair u' t' r := by
  unfold deactivateRow
  by_cases h : isPairActive u t r = true
  · rw [if_pos h]; simp [isPair]
  · rw [if_neg h]

theorem version_deactivateRow (u t : String) (r : TemplateRow) :
    (deactivateRow u t r).version = r.version := by
  unfold deactivateRow
  by_cases h : isPairActive u t r = true
  · rw [if_pos h]
  · rw [if_neg h]

theorem tmplMax_map_deactivate (u t u' t' : String) (l : List TemplateRow) :
    tmplMax u t (l.map (deactivateRow u' t')) = tmplMax u t l := by
  induction l with
  | nil => rfl
  | cons a l ih =>
    rw [List.map_cons, tmplMax_cons, tmplMax_cons, ih,
      isPair_deactivateRow u' t' u t a, version_deactivateRow u' t' a]

theorem tmplMax_filter_le (u t : String) (p : TemplateRow → Bool) (l : List TemplateRow) :
    tmplMax u t (l.filter p) ≤ tmplMax u t l := by
  induction l with
  | nil => exact Nat.le_refl _
  | cons a l ih =>
    rw [List.filter_cons]
    by_cases hpa : p a = true
    · rw [if_pos hpa, tmplMax_cons, tmplMax_cons]
      by_cases hq : isPair u t a = true
      · rw [if_pos hq, if_pos hq]
        exact max_le_max (Nat.le_refl _) ih
      · rw [if_neg hq, if_neg hq]; exact ih
    · rw [if_neg hpa, tmplMax_cons]
      by_cases hq : isPair u t a = true
      · rw [if_pos hq]
        exact Nat.le_trans ih (Nat.le_max_right _ _)
      · rw [if_neg hq]; exact ih

theorem tmplMax_append_singleton (u t : String) (l : List TemplateRow) (r : TemplateRow) :
    tmplMax u t (l ++ [r]) =
      if isPair u t r then max (tmplMax u t l) r.version else tmplMax u t l := by
  induction l with
  | nil =>
    rw [List.nil_append, tmplMax_cons]
    by_cases hq : isPair u t r = true
    · rw [if_pos hq, if_pos hq, tmplMax, List.foldr_nil, Nat.max_comm]
    · rw [if_neg hq, if_neg hq]
  | cons a l ih =>
    rw [List.cons_append, tmplMax_cons, tmplMax_cons, ih]
    by_cases hq : isPair u t r = true
    · rw [if_pos hq, if_pos hq]
      by_cases ha : isPair u t a = true
      · rw [if_pos ha, if_pos ha, Nat.max_assoc]
      · rw [if_neg ha, if_neg ha]
    · rw [if_neg hq, if_neg hq]

/-- A successful `updateTemplate` returns version `max + 1` and leaves the
deactivated history plus the new active row. -/
theorem updateTemplate_ok (u t c : String) (now : Nat) (s : TemplateStore)
    (hu : ¬ u = "") (ht : t ∈ validTemplateTypes) (hc : ¬ c = "") :
    updateTemplate u t c now s =
      (.ok ⟨s.nextId, tmplMax u t s.rows + 1, now⟩,
       ⟨((s.rows.filter (fun r => !isPairInactive u t r)).map (deactivateRow u t))
          ++ [⟨s.nextId, u, t, c, tmplMax u t s.rows + 1, true, now, now⟩],
        s.nextId + 1⟩) := by
  have ht' : ¬ t = "" := by
    intro hh
    rw [hh] at ht
    simp [validTemplateTypes] at ht
  rw [updateTemplate, updateTemplateF]
  simp [noFail, hu, ht, hc, ht']

/-- After a successful upsert the recorded maximum version of the pair has
grown by exactly one. -/
theorem tmplMax_after_upsert (u t c : String) (now : Nat) (s : TemplateStore)
    (hu : ¬ u = "") (ht : t ∈ validTemplateTypes) (hc : ¬ c = "") :
    tmplMax u t (updateTemplate u t c now s).2.rows = tmplMax u t s.rows + 1 := by
  rw [updateTemplate_ok u t c now s hu ht hc]
  rw [tmplMax_append_singleton]
  have hp : isPair u t (⟨s.nextId, u, t, c, tmplMax u t s.rows + 1, true, now, now⟩ :
      TemplateRow) = true := by
    simp [isPair]
  rw [if_pos hp]
  have hle : tmplMax u t (((s.rows.filter (fun r => !isPairInactive u t r)).map
      (deactivateRow u t))) ≤ tmplMax u t s.rows := by
    rw [tmplMax_map_deactivate]
    exact tmplMax_filter_le u t _ s.rows
  simp
  omega

theorem upsertSeq_versions (u t : String) (now : Nat) (contents : List String)
    (hu : ¬ u = "") (ht : t ∈ validTemplateTypes) (hc : ∀ c ∈ contents, ¬ c = "") :
    ∀ s : TemplateStore,
      (upsertSeq u t contents now s).1 = List.range' (tmplMax u t s.rows + 1) contents.length := by
  induction contents with
  | nil => intro s; rfl
  | cons c cs ih =>
    intro s
    have hc1 : ¬ c = "" := hc c (List.mem_cons_self c cs)
    have hcs : ∀ x ∈ cs, ¬ x = "" := fun x hx => hc x (List.mem_cons_of_mem c hx)
    rw [upsertSeq]
    simp only [updateTemplate_ok u t c now s hu ht hc1]
    rw [ih hcs]
    have hmax := tmplMax_after_upsert u t c now s hu ht hc1
    rw [updateTemplate_ok u t c now s hu ht hc1] at hmax
    simp only [List.length_cons, List.range'_succ]
    rw [hmax]

theorem tmplMax_of_no_pair (u t : String) (rows : List TemplateRow)
    (h : ∀ r ∈ rows, isPair u t r = false) : tmplMax u t rows = 0 := by
  induction rows with
  | nil => rfl
  | cons a l ih =>
    rw [tmplMax_cons, if_neg (by simp [h a (List.mem_cons_self a l)])]
    exact ih (fun r hr => h r (List.mem_cons_of_mem a hr))

/-- C4: every successful `updateTemplate` call returns
`max(existing versions) + 1` (so version 1 when no row of the pair
exists), and a sequence of `n` successful upserts on the same
`(owner, templateType)` starting from no rows for that pair returns
exactly the versions `1, 2, …, n` with no gaps or repeats. -/
theorem upsert_version_monotone :
    (∀ (u t c : String) (now : Nat) (s : TemplateStore),
        ¬ u = "" → t ∈ validTemplateTypes → ¬ c = "" →
        (updateTemplate u t c now s).1 =
          .ok ⟨s.nextId, tmplMax u t s.rows + 1, now⟩) ∧
    (∀ (u t : String) (now : Nat) (contents : List String) (s : TemplateStore),
        ¬ u = "" → t ∈ validTemplateTypes → (∀ c ∈ contents, ¬ c = "") →
        (∀ r ∈ s.rows, isPair u t r = false) →
        (upsertSeq u t contents now s).1 = List.range' 1 contents.length) := by
  constructor
  · intro u t c now s hu ht hc
    rw [updateTemplate_ok u t c now s hu ht hc]
  · intro u t now contents s hu ht hc hempty
    rw [upsertSeq_versions u t now contents hu ht hc s,
      tmplMax_of_no_pair u t s.rows hempty]

theorem upsert_version_monotone_witness :
    (updateTemplate "u" "conceptMentor" "x" 0 emptyTemplateStore).1 = .ok ⟨1, 1, 0⟩ ∧
    (upsertSeq "u" "conceptMentor" ["a", "b", "c"] 0 emptyTemplateStore).1 = [1, 2, 3] := by
  constructor
  · have h := upsert_version_monotone.1 "u" "conceptMentor" "x" 0 emptyTemplateStore
      (by decide) (by decide) (by decide)
    rw [h]
    rfl
  · have h := upsert_version_monotone.2 "u" "conceptMentor" 0 ["a", "b", "c"]
      emptyTemplateStore (by decide) (by decide) (by decide) (by intro r hr; cases hr)
    rw [h]
    rfl

/-! ### Frame effect of upsert (claim C3) -/

/-- C3 counterexample: the third successful upsert on a pair permanently
removes the stored version-1 row (the controller's `DELETE … WHERE
is_active = FALSE` workaround), so upsert is not removal-free. -/
theorem upsert_removes_rows_cex :
    exOk (updateTemplate "u" "conceptMentor" "c3" 2
        (updateTemplate "u" "conceptMentor" "c2" 1
          (updateTemplate "u" "conceptMentor" "c1" 0 emptyTemplateStore).2).2).1 = true ∧
    versionCount "u" "conceptMentor" 1
      (updateTemplate "u" "conceptMentor" "c2" 1
        (updateTemplate "u" "conceptMentor" "c1" 0 emptyTemplateStore).2).2.rows = 1 ∧
    versionCount "u" "conceptMentor" 1
      (updateTemplate "u" "conceptMentor" "c3" 2
        (updateTemplate "u" "conceptMentor" "c2" 1
          (updateTemplate "u" "conceptMentor" "c1" 0 emptyTemplateStore).2).2).2.rows = 0 := by
  decide

theorem filter_map_of_fix {α : Type} (p : α → Bool) (f : α → α)
    (hker : ∀ a, p (f a) = p a) (hfix : ∀ a, p a = true → f a = a) (l : List α) :
    (l.map f).filter p = l.filter p := by
  induction l with
  | nil => rfl
  | cons a l ih =>
    rw [List.map_cons, List.filter_cons, List.filter_cons, hker a]
    by_cases hp : p a = true
    · rw [if_pos hp, if_pos hp, hfix a hp, ih]
    · rw [if_neg hp, if_neg hp, ih]

theorem filter_subsume {α : Type} (p q : α → Bool)
    (h : ∀ a, p a = true → q a = true) (l : List α) :
    (l.filter q).filter p = l.filter p := by
  rw [List.filter_filter]
  exact List.filter_congr (fun a _ => by
    by_cases hp : p a = true
    · rw [hp, h a hp]; rfl
    · simp at hp
      rw [hp]
      rfl)

theorem filter_inactive_map_deactivate (u t : String) (l : List TemplateRow)
    (h : ∀ r ∈ l, isPairInactive u t r = false) :
    (l.map (deactivateRow u t)).filter (isPairInactive u t) =
      (l.filter (isPairActive u t)).map (fun r => { r with isActive := false }) := by
  induction l with
  | nil => rfl
  | cons a l ih =>
    have ha := h a (List.mem_cons_self a l)
    have hl := fun r hr => h r (List.mem_cons_of_mem a hr)
    rw [List.map_cons, List.filter_cons, List.filter_cons]
    by_cases hact : isPairActive u t a = true
    · have hpa : isPair u t a = true := by
        simp [isPairActive] at hact; exact hact.1
      have hd : deactivateRow u t a = { a with isActive := false } := by
        rw [deactivateRow, if_pos hact]
      have hin : isPairInactive u t ({ a with isActive := false } : TemplateRow) = true := by
        simp [isPairInactive, isPair] at hpa ⊢
        exact hpa
      rw [hd, if_pos hin, if_pos hact, List.map_cons, ih hl]
    · have hd : deactivateRow u t a = a := by
        rw [deactivateRow, if_neg hact]
      rw [hd, if_neg (by simp [ha]), if_neg hact, ih hl]

/-- C3 (amended): a successful upsert leaves the rows of every other
`(owner, templateType)` pair untouched, flips the prior active row of the
pair (if any) to `isActive = false`, inserts exactly one new active row —
and, in addition, permanently deletes every inactive row of the pair (the
controller's constraint workaround), so upsert is removal-free only for
the other pairs. -/
theorem upsert_frame_effect (u t c : String) (now : Nat) (s : TemplateStore)
    (hu : ¬ u = "") (ht : t ∈ validTemplateTypes) (hc : ¬ c = "") :
    let s' := (updateTemplate u t c now s).2
    (s'.rows.filter (fun r => !isPair u t r) = s.rows.filter (fun r => !isPair u t r)) ∧
    (s'.rows.filter (isPairInactive u t) =
      (s.rows.filter (isPairActive u t)).map (fun r => { r with isActive := false })) ∧
    (s'.rows.filter (isPairActive u t) =
      [⟨s.nextId, u, t, c, tmplMax u t s.rows + 1, true, now, now⟩]) := by
  intro s'
  have hs : s' = ⟨((s.rows.filter (fun r => !isPairInactive u t r)).map (deactivateRow u t))
      ++ [⟨s.nextId, u, t, c, tmplMax u t s.rows + 1, true, now, now⟩], s.nextId + 1⟩ := by
    show (updateTemplate u t c now s).2 = _
    rw [updateTemplate_ok u t c now s hu ht hc]
  have hnewPair : isPair u t (⟨s.nextId, u, t, c, tmplMax u t s.rows + 1, true, now, now⟩ :
      TemplateRow) = true := by simp [isPair]
  refine ⟨?_, ?_, ?_⟩
  · rw [hs]
    simp only [List.filter_append]
    rw [List.filter_cons, if_neg (by simp [hnewPair]), List.filter_nil, List.append_nil]
    rw [filter_map_of_fix (fun r => !isPair u t r) (deactivateRow u t)
      (fun a => by
        show (!isPair u t (deactivateRow u t a)) = !isPair u t a
        rw [isPair_deactivateRow])
      (fun a hp => by
        have hpa : isPair u t a = false := by simpa using hp
        rw [deactivateRow, if_neg (by simp [isPairActive, hpa])])]
    exact filter_subsume _ _ (fun a hp => by
      have hpa : isPair u t a = false := by simpa using hp
      simp [isPairInactive, hpa]) s.rows
  · rw [hs]
    simp only [List.filter_append]
    rw [List.filter_cons, if_neg (by simp [isPairInactive, isPair]), List.filter_nil,
      List.append_nil]
    rw [filter_inactive_map_deactivate u t _ (fun r hr => by
      have := List.of_mem_filter hr
      simpa using this)]
    congr 1
    exact filter_subsume _ _ (fun a hp => by
      have h1 : a.isActive = true := by
        simp [isPairActive] at hp; exact hp.2
      simp [isPairInactive, h1]) s.rows
  · rw [hs]
    simp only [List.filter_append]
    have hz : ((s.rows.filter (fun r => !isPairInactive u t r)).map
        (deactivateRow u t)).filter (isPairActive u t) = [] :=
      List.filter_eq_nil_iff.mpr (fun a ha => by
        obtain ⟨b, _, rfl⟩ := List.mem_map.mp ha
        simp [isPairActive_deactivateRow_self])
    rw [hz, List.nil_append, List.filter_cons,
      if_pos (by simp [isPairActive, hnewPair]), List.filter_nil]

theorem upsert_frame_effect_witness :
    let s' := (updateTemplate "u" "conceptMentor" "c" 9 emptyTemplateStore).2
    (s'.rows.filter (fun r => !isPair "u" "conceptMentor" r) =
      emptyTemplateStore.rows.filter (fun r => !isPair "u" "conceptMentor" r)) ∧
    (s'.rows.filter (isPairInactive "u" "conceptMentor") =
      (emptyTemplateStore.rows.filter (isPairActive "u" "conceptMentor")).map
        (fun r => { r with isActive := false })) ∧
    (s'.rows.filter (isPairActive "u" "conceptMentor") =
      [⟨emptyTemplateStore.nextId, "u", "conceptMentor", "c",
        tmplMax "u" "conceptMentor" emptyTemplateStore.rows + 1, true, 9, 9⟩]) :=
  upsert_frame_effect "u" "conceptMentor" "c" 9 emptyTemplateStore
    (by decide) (by decide) (by decide)

/-! ### Restore idempotence (claim C6) -/

theorem deactivateRow_activateRow_deactivateRow (u t : String) (v : Nat) (r : TemplateRow) :
    deactivateRow u t (activateRow u t v (deactivateRow u t r)) = deactivateRow u t r := by
  by_cases h1 : isPairActive u t r = true
  · have hd : deactivateRow u t r = { r with isActive := false } := by
      rw [deactivateRow, if_pos h1]
    have hp : isPair u t r = true := by
      simp [isPairActive] at h1; exact h1.1
    rw [hd]
    by_cases h2 : hasVersion u t v ({ r with isActive := false } : TemplateRow) = true
    · rw [activateRow, if_pos h2]
      have h3 : isPairActive u t ({ { r with isActive := false } with isActive := true } :
          TemplateRow) = true := by
        simp [isPairActive, isPair] at hp ⊢
        exact hp
      rw [deactivateRow, if_pos h3]
    · rw [activateRow, if_neg h2]
      rw [deactivateRow, if_neg (by simp [isPairActive])]
  · have hd : deactivateRow u t r = r := by rw [deactivateRow, if_neg h1]
    rw [hd]
    by_cases h2 : hasVersion u t v r = true
    · have hp : isPair u t r = true := by
        simp [hasVersion] at h2; exact h2.1
      have hia : r.isActive = false := by
        simp [isPairActive, hp] at h1
        exact h1
      rw [activateRow, if_pos h2]
      have h3 : isPairActive u t ({ r with isActive := true } : TemplateRow) = true := by
        simp [isPairActive, isPair] at hp ⊢
        exact hp
      rw [deactivateRow, if_pos h3]
      cases r
      simp at hia
      simp [hia]
    · rw [activateRow, if_neg h2, deactivateRow, if_neg h1]

theorem activateRow_idem_on (u t : String) (v : Nat) (r : TemplateRow) :
    activateRow u t v (deactivateRow u t (activateRow u t v (deactivateRow u t r))) =
      activateRow u t v (deactivateRow u t r) := by
  rw [deactivateRow_activateRow_deactivateRow]

theorem hasVersion_filter_map (u t : String) (v w : Nat) (l : List TemplateRow) :
    ((l.map (deactivateRow u t)).map (activateRow u t v)).filter (hasVersion u t w) =
      ((l.filter (hasVersion u t w)).map (deactivateRow u t)).map (activateRow u t v) := by
  rw [List.filter_map, List.filter_map]
  congr 2
  exact List.filter_congr (fun a _ => by
    show hasVersion u t w (activateRow u t v (deactivateRow u t a)) = hasVersion u t w a
    rw [hasVersion_activateRow, hasVersion_deactivateRow])

theorem id_deactivateRow (u t : String) (r : TemplateRow) :
    (deactivateRow u t r).id = r.id := by
  rw [deactivateRow]
  by_cases h : isPairActive u t r = true
  · rw [if_pos h]
  · rw [if_neg h]

theorem id_activateRow (u t : String) (v : Nat) (r : TemplateRow) :
    (activateRow u t v r).id = r.id := by
  rw [activateRow]
  by_cases h : hasVersion u t v r = true
  · rw [if_pos h]
  · rw [if_neg h]

theorem version_activateRow (u t : String) (v : Nat) (r : TemplateRow) :
    (activateRow u t v r).version = r.version := by
  rw [activateRow]
  by_cases h : hasVersion u t v r = true
  · rw [if_pos h]
  · rw [if_neg h]

theorem restoreTemplate_ok (u t : String) (v : Nat) (s : TemplateStore)
    (hu : ¬ u = "") (ht : ¬ t = "") (hv0 : ¬ v = 0)
    (hex : (s.rows.filter (hasVersion u t v)).isEmpty = false) :
    restoreTemplate u t v s =
      (.ok (),
       { s with rows := ((s.rows.map (deactivateRow u t)).map (activateRow u t v)) }) := by
  rw [restoreTemplate, restoreTemplateF]
  simp [noFail, hu, ht, hv0, hex]

/-- C6: for an existing (and, as in every reachable store, unique) version
`V` of a pair, restoring `V` and then immediately restoring `V` again
leaves exactly the stored state of the first restore; after the restore
the pair's active rows are exactly the single row carrying version `V`,
and no row's id or version number changed (no bump, no duplicate). -/
theorem restore_idempotent (u t : String) (v : Nat) (s : TemplateStore)
    (hu : ¬ u = "") (ht : ¬ t = "") (hv0 : ¬ v = 0)
    (huniq : versionCount u t v s.rows = 1) :
    (restoreTemplate u t v ((restoreTemplate u t v s).2)).2 =
      (restoreTemplate u t v s).2 ∧
    activeCount u t (restoreTemplate u t v s).2.rows = 1 ∧
    (∀ r ∈ (restoreTemplate u t v s).2.rows,
        isPairActive u t r = true → hasVersion u t v r = true) ∧
    (restoreTemplate u t v s).2.rows.map (fun r => (r.id, r.version)) =
      s.rows.map (fun r => (r.id, r.version)) := by
  have hlen : (s.rows.filter (hasVersion u t v)).length = 1 := by
    rw [versionCount, List.countP_eq_length_filter] at huniq
    exact huniq
  have hex : (s.rows.filter (hasVersion u t v)).isEmpty = false := by
    rw [List.isEmpty_eq_false]
    intro hnil
    rw [hnil] at hlen
    simp at hlen
  have h1 := restoreTemplate_ok u t v s hu ht hv0 hex
  have hs1 : (restoreTemplate u t v s).2 =
      { s with rows := (s.rows.map (deactivateRow u t)).map (activateRow u t v) } := by
    rw [h1]
  have hlen1 : ((restoreTemplate u t v s).2.rows.filter
      (hasVersion u t v)).length = 1 := by
    rw [hs1]
    show (((s.rows.map (deactivateRow u t)).map (activateRow u t v)).filter
      (hasVersion u t v)).length = 1
    rw [hasVersion_filter_map]
    simp [hlen]
  have hex1 : ((restoreTemplate u t v s).2.rows.filter
      (hasVersion u t v)).isEmpty = false := by
    rw [List.isEmpty_eq_false]
    intro hnil
    rw [hnil] at hlen1
    simp at hlen1
  have h2 := restoreTemplate_ok u t v ((restoreTemplate u t v s).2) hu ht hv0 hex1
  refine ⟨?_, ?_, ?_, ?_⟩
  · rw [h2, hs1]
    simp only [List.map_map]
    congr 1
    exact List.map_congr_left (fun r _ => by
      show activateRow u t v (deactivateRow u t (activateRow u t v (deactivateRow u t r))) =
        activateRow u t v (deactivateRow u t r)
      rw [deactivateRow_activateRow_deactivateRow])
  · rw [hs1]
    show activeCount u t ((s.rows.map (deactivateRow u t)).map (activateRow u t v)) = 1
    rw [activeCount, List.countP_map, List.countP_map]
    have hcong : s.rows.countP ((isPairActive u t ∘ activateRow u t v) ∘ deactivateRow u t)
        = s.rows.countP (hasVersion u t v) := by
      exact List.countP_congr (fun a _ => by
        simp [Function.comp, isPairActive_activateRow_deactivateRow])
    rw [hcong]
    rw [versionCount] at huniq
    exact huniq
  · rw [hs1]
    intro r hr hact
    obtain ⟨r1, hr1, rfl⟩ := List.mem_map.mp hr
    obtain ⟨r0, _, rfl⟩ := List.mem_map.mp hr1
    rw [isPairActive_activateRow_deactivateRow] at hact
    rw [hasVersion_activateRow, hasVersion_deactivateRow]
    exact hact
  · rw [hs1]
    show ((s.rows.map (deactivateRow u t)).map (activateRow u t v)).map
        (fun r => (r.id, r.version)) = s.rows.map (fun r => (r.id, r.version))
    rw [List.map_map, List.map_map]
    exact List.map_congr_left (fun r _ => by
      show ((activateRow u t v (deactivateRow u t r)).id,
          (activateRow u t v (deactivateRow u t r)).version) = (r.id, r.version)
      rw [id_activateRow, id_deactivateRow, version_activateRow, version_deactivateRow])

theorem restore_idempotent_witness :
    let s : TemplateStore :=
      ⟨[⟨1, "u", "conceptMentor", "a", 1, false, 0, 0⟩,
        ⟨2, "u", "conceptMentor", "b", 2, true, 0, 0⟩], 3⟩
    (restoreTemplate "u" "conceptMentor" 1 ((restoreTemplate "u" "conceptMentor" 1 s).2)).2 =
      (restoreTemplate "u" "conceptMentor" 1 s).2 ∧
    activeCount "u" "conceptMentor" (restoreTemplate "u" "conceptMentor" 1 s).2.rows = 1 ∧
    (∀ r ∈ (restoreTemplate "u" "conceptMentor" 1 s).2.rows,
        isPairActive "u" "conceptMentor" r = true →
        hasVersion "u" "conceptMentor" 1 r = true) ∧
    (restoreTemplate "u" "conceptMentor" 1 s).2.rows.map (fun r => (r.id, r.version)) =
      s.rows.map (fun r => (r.id, r.version)) :=
  restore_idempotent "u" "conceptMentor" 1 _ (by decide) (by decide) (by decide) (by decide)

/-! ### Delete on a missing target (claim C8) -/

/-- C8: each of the three delete modes — a specific version, all versions,
or the active version only — fails with `NotFoundError` after a rollback,
affecting zero rows and leaving every stored template row unchanged, when
nothing matches. -/
theorem delete_notfound_no_effect (u t : String) (s : TemplateStore)
    (hu : ¬ u = "") (ht : ¬ t = "") :
    (∀ v : Nat, ¬ v = 0 → (∀ r ∈ s.rows, hasVersion u t v r = false) →
        deleteTemplate u t (some v) false s = (.error .notFound, s)) ∧
    ((∀ r ∈ s.rows, isPair u t r = false) →
        deleteTemplate u t none true s = (.error .notFound, s)) ∧
    ((∀ r ∈ s.rows, isPairActive u t r = false) →
        deleteTemplate u t none false s = (.error .notFound, s)) := by
  refine ⟨?_, ?_, ?_⟩
  · intro v hv hz
    have hm : s.rows.filter (matchesDeleteMode u t (some v) false) = [] :=
      List.filter_eq_nil_iff.mpr (fun a ha => by
        simp [matchesDeleteMode, hv, hz a ha])
    rw [deleteTemplate, deleteTemplateF]
    simp [noFail, hu, ht, hm]
  · intro hz
    have hm : s.rows.filter (matchesDeleteMode u t none true) = [] :=
      List.filter_eq_nil_iff.mpr (fun a ha => by
        simp [matchesDeleteMode, hz a ha])
    rw [deleteTemplate, deleteTemplateF]
    simp [noFail, hu, ht, hm]
  · intro hz
    have hm : s.rows.filter (matchesDeleteMode u t none false) = [] :=
      List.filter_eq_nil_iff.mpr (fun a ha => by
        simp [matchesDeleteMode, hz a ha])
    rw [deleteTemplate, deleteTemplateF]
    simp [noFail, hu, ht, hm]

theorem delete_notfound_no_effect_witness :
    let s : TemplateStore := ⟨[⟨1, "x", "conceptMentor", "a", 1, true, 0, 0⟩], 2⟩
    deleteTemplate "u" "conceptMentor" (some 2) false s = (.error .notFound, s) ∧
    deleteTemplate "u" "conceptMentor" none true s = (.error .notFound, s) ∧
    deleteTemplate "u" "conceptMentor" none false s = (.error .notFound, s) := by
  intro s
  have h := delete_notfound_no_effect "u" "conceptMentor" s (by decide) (by decide)
  exact ⟨h.1 2 (by decide) (by decide), h.2.1 (by decide), h.2.2 (by decide)⟩

/-! ### Chat session manager lemmas (claims C2, C5, C10) -/

theorem createChat_ok (uid : String) (conv : List String) (st : Option String)
    (now : Nat) (s : ChatStore) (huid : ¬ uid = "") :
    createChat uid (some conv) st now s =
      (.ok (⟨s.nextId, uid, conv, coerceStatus st, now, now⟩,
            isTerminal (coerceStatus st)),
       ⟨(if isTerminal (coerceStatus st)
          then s.rows.map (archiveIfLive uid now) else s.rows)
          ++ [⟨s.nextId, uid, conv, coerceStatus st, now, now⟩], s.nextId + 1⟩) := by
  rw [createChat, createChatF]
  simp [noFail, huid]

theorem updateConversation_ok (cid : Nat) (conv : List String) (st : String)
    (now : Nat) (s : ChatStore) (target : ChatRow)
    (hfind : s.rows.find? (fun r => r.id == cid) = some target) :
    updateConversation cid (some conv) st now s =
      (.ok ({ target with
                conversation := conv
                status := if st ∈ validChatStatuses then st else "incomplete"
                updated_at := now },
            isTerminal (if st ∈ validChatStatuses then st else "incomplete")),
       { s with rows :=
          ((if isTerminal (if st ∈ validChatStatuses then st else "incomplete")
            then s.rows.map (fun r =>
              if r.user_id == target.user_id && isLive r && r.id != cid
              then { r with status := "archived", updated_at := now } else r)
            else s.rows).map (fun r =>
              if r.id == cid
              then { r with
                       conversation := conv
                       status := if st ∈ validChatStatuses then st else "incomplete"
                       updated_at := now }
              else r)) }) := by
  rw [updateConversation, updateConversationF]
  simp only [noFail, Bool.false_eq_true, if_false, Bool.and_false, hfind]

/-- Pred used by `chatLiveCount`, killed by the archival sweep of
`createChat`. -/
theorem archiveIfLive_not_live (uid : String) (now : Nat) (r : ChatRow) :
    ((archiveIfLive uid now r).user_id == uid && isLive (archiveIfLive uid now r)) = false := by
  rw [archiveIfLive]
  by_cases hc : (r.user_id == uid && isLive r) = true
  · rw [if_pos hc]
    have hlive : isLive ({ r with status := "archived", updated_at := now } : ChatRow)
        = false := by
      simp [isLive]
    rw [hlive, Bool.and_false]
  · rw [if_neg hc]
    simp only [Bool.not_eq_true] at hc
    exact hc

/-- C2 counterexample: two successful creates with status `incomplete`
starting from the empty store leave two live sessions for the same user,
refuting the single-live-session invariant as stated. -/
theorem chat_single_live_cex :
    exOk (createChat "u1" (some ["hi"]) (some "incomplete") 0 emptyChatStore).1 = true ∧
    exOk (createChat "u1" (some ["hi"]) (some "incomplete") 1
        (createChat "u1" (some ["hi"]) (some "incomplete") 0 emptyChatStore).2).1 = true ∧
    chatLiveCount "u1"
      (createChat "u1" (some ["hi"]) (some "incomplete") 1
        (createChat "u1" (some ["hi"]) (some "incomplete") 0 emptyChatStore).2).2.rows = 2 := by
  decide

theorem countP_map_le_of_imp {α : Type} (p q : α → Bool) (f : α → α)
    (h : ∀ a, p (f a) = true → q a = true) (l : List α) :
    (l.map f).countP p ≤ l.countP q := by
  induction l with
  | nil => exact Nat.le_refl _
  | cons a l ih =>
    rw [List.map_cons]
    by_cases hp : p (f a) = true
    · rw [List.countP_cons_of_pos _ _ hp, List.countP_cons_of_pos _ _ (h a hp)]
      omega
    · rw [List.countP_cons_of_neg _ _ hp]
      by_cases hq : q a = true
      · rw [List.countP_cons_of_pos _ _ hq]
        omega
      · rw [List.countP_cons_of_neg _ _ hq]
        exact ih

theorem countP_id_le_one (cid : Nat) (l : List ChatRow)
    (h : (l.map ChatRow.id).Nodup) : l.countP (fun r => r.id == cid) ≤ 1 := by
  induction l with
  | nil => exact Nat.zero_le _
  | cons a l ih =>
    rw [List.map_cons, List.nodup_cons] at h
    by_cases ha : (a.id == cid) = true
    · have hz : l.countP (fun r => r.id == cid) = 0 :=
        List.countP_eq_zero.mpr (fun r hr hc => by
          simp at ha hc
          exact h.1 (by rw [ha, ← hc]; exact List.mem_map_of_mem ChatRow.id hr))
      simp [List.countP_cons, ha, hz]
    · have hrest := ih h.2
      simp [List.countP_cons, ha]
      exact hrest

/-- C2 (amended): an operation whose coerced status is terminal
(`completed` or `stopped`) leaves at most one live session for the
affected user — `createChat` archives every live row of the user before
inserting, and `updateConversation` archives every live row except the
target (given the table's distinct primary keys).  Creates and updates
with a live status (`incomplete`, `paused`) perform no archival, so a
sequence containing them can leave several live sessions (see the
counterexample). -/
theorem chat_terminal_single_live :
    (∀ (uid : String) (conv : List String) (st : String) (now : Nat) (s : ChatStore),
        st = "completed" ∨ st = "stopped" → ¬ uid = "" →
        chatLiveCount uid (createChat uid (some conv) (some st) now s).2.rows ≤ 1) ∧
    (∀ (cid : Nat) (conv : List String) (st : String) (now : Nat) (s : ChatStore)
        (target : ChatRow),
        st = "completed" ∨ st = "stopped" →
        s.rows.find? (fun r => r.id == cid) = some target →
        (s.rows.map ChatRow.id).Nodup →
        chatLiveCount target.user_id
          (updateConversation cid (some conv) st now s).2.rows ≤ 1) := by
  constructor
  · intro uid conv st now s hst huid
    have hcoe : coerceStatus (some st) = st := by
      rcases hst with rfl | rfl <;> simp [coerceStatus, validChatStatuses]
    have hterm : isTerminal st = true := by
      rcases hst with rfl | rfl <;> rfl
    rw [createChat_ok uid conv (some st) now s huid]
    show chatLiveCount uid ((if isTerminal (coerceStatus (some st))
        then s.rows.map (archiveIfLive uid now) else s.rows)
        ++ [⟨s.nextId, uid, conv, coerceStatus (some st), now, now⟩]) ≤ 1
    rw [hcoe, if_pos hterm]
    rw [chatLiveCount, List.countP_append]
    have hmap : (s.rows.map (archiveIfLive uid now)).countP
        (fun r => r.user_id == uid && isLive r) = 0 :=
      List.countP_eq_zero.mpr (fun a ha hc => by
        obtain ⟨b, _, rfl⟩ := List.mem_map.mp ha
        have hz := archiveIfLive_not_live uid now b
        simp only [hz, Bool.false_eq_true] at hc)
    rw [hmap]
    rcases hst with rfl | rfl <;> simp [isLive]
  · intro cid conv st now s target hst hfind hnodup
    have hvalid : st ∈ validChatStatuses := by
      rcases hst with rfl | rfl <;> simp [validChatStatuses]
    have hfS : (if st ∈ validChatStatuses then st else "incomplete") = st := if_pos hvalid
    have hterm : isTerminal st = true := by
      rcases hst with rfl | rfl <;> rfl
    rw [updateConversation_ok cid conv st now s target hfind]
    show chatLiveCount target.user_id
        (((if isTerminal (if st ∈ validChatStatuses then st else "incomplete")
           then s.rows.map (fun r =>
             if r.user_id == target.user_id && isLive r && r.id != cid
             then { r with status := "archived", updated_at := now } else r)
           else s.rows).map (fun r =>
             if r.id == cid
             then { r with
                      conversation := conv
                      status := if st ∈ validChatStatuses then st else "incomplete"
                      updated_at := now }
             else r))) ≤ 1
    rw [hfS, if_pos hterm]
    rw [chatLiveCount, List.countP_map, List.countP_map]
    refine Nat.le_trans (List.countP_mono_left (fun a _ hpred => ?_))
      (countP_id_le_one cid s.rows hnodup)
    show (a.id == cid) = true
    simp only [Function.comp] at hpred
    by_cases hid : (a.id == cid) = true
    · exact hid
    · exfalso
      have hbne : (a.id != cid) = true := by
        simp [bne]
        simpa using hid
      by_cases hcond : (a.user_id == target.user_id && isLive a && a.id != cid) = true
      · rw [if_pos hcond] at hpred
        have hida : (({ a with status := "archived", updated_at := now } : ChatRow).id
            == cid) = false := by
          simpa using hid
        rw [if_neg (by simp [hida])] at hpred
        simp [isLive] at hpred
      · rw [if_neg hcond] at hpred
        rw [if_neg (by simpa using hid)] at hpred
        rw [hbne, Bool.and_true] at hcond
        exact hcond hpred

theorem chat_terminal_single_live_witness :
    let s : ChatStore := ⟨[⟨1, "u1", ["a"], "incomplete", 0, 0⟩,
        ⟨2, "u1", ["b"], "paused", 0, 0⟩], 3⟩
    chatLiveCount "u1" (createChat "u1" (some ["c"]) (some "stopped") 5 s).2.rows ≤ 1 ∧
    chatLiveCount "u1" (updateConversation 1 (some ["c"]) "completed" 5 s).2.rows ≤ 1 := by
  intro s
  constructor
  · exact chat_terminal_single_live.1 "u1" ["c"] "stopped" 5 s (Or.inr rfl) (by decide)
  · exact chat_terminal_single_live.2 1 ["c"] "completed" 5 s
      ⟨1, "u1", ["a"], "incomplete", 0, 0⟩ (Or.inl rfl) (by decide) (by decide)

/-- C5: updating an existing session to `completed` or `stopped` archives
every *other* live row of the same user (stamping `updated_at`), leaves
the target row itself with the new status and the new conversation (not
archived), and returns the updated row with `shouldStartFresh = true`. -/
theorem update_terminal_archives_others (cid : Nat) (conv : List String) (st : String)
    (now : Nat) (s : ChatStore) (target : ChatRow)
    (hst : st = "completed" ∨ st = "stopped")
    (hfind : s.rows.find? (fun r => r.id == cid) = some target) :
    (updateConversation cid (some conv) st now s).1 =
      .ok ({ target with conversation := conv, status := st, updated_at := now }, true) ∧
    (∀ r ∈ s.rows, ¬ r.id = cid → r.user_id = target.user_id → isLive r = true →
        ({ r with status := "archived", updated_at := now } : ChatRow) ∈
          (updateConversation cid (some conv) st now s).2.rows) ∧
    (∀ r ∈ s.rows, r.id = cid →
        ({ r with conversation := conv, status := st, updated_at := now } : ChatRow) ∈
          (updateConversation cid (some conv) st now s).2.rows) := by
  have hvalid : st ∈ validChatStatuses := by
    rcases hst with rfl | rfl <;> simp [validChatStatuses]
  have hfS : (if st ∈ validChatStatuses then st else "incomplete") = st := if_pos hvalid
  have hterm : isTerminal st = true := by
    rcases hst with rfl | rfl <;> rfl
  have hok := updateConversation_ok cid conv st now s target hfind
  refine ⟨?_, ?_, ?_⟩
  · rw [hok]
    simp only [hfS, hterm]
  · intro r hr hid huser hlive
    rw [hok]
    show ({ r with status := "archived", updated_at := now } : ChatRow) ∈
      ((if isTerminal (if st ∈ validChatStatuses then st else "incomplete")
        then s.rows.map (fun x =>
          if x.user_id == target.user_id && isLive x && x.id != cid
          then { x with status := "archived", updated_at := now } else x)
        else s.rows).map (fun x =>
          if x.id == cid
          then { x with
                   conversation := conv
                   status := if st ∈ validChatStatuses then st else "incomplete"
                   updated_at := now }
          else x))
    rw [hfS, if_pos hterm]
    have hcond : (r.user_id == target.user_id && isLive r && r.id != cid) = true := by
      simp [huser, hlive, bne]
      simpa using hid
    have harch : (if r.user_id == target.user_id && isLive r && r.id != cid
        then ({ r with status := "archived", updated_at := now } : ChatRow) else r) =
        { r with status := "archived", updated_at := now } := if_pos hcond
    have hupd : (if ({ r with status := "archived", updated_at := now } : ChatRow).id == cid
        then ({ { r with status := "archived", updated_at := now } with
                  conversation := conv
                  status := st
                  updated_at := now } : ChatRow)
        else { r with status := "archived", updated_at := now }) =
        { r with status := "archived", updated_at := now } := by
      rw [if_neg (by simpa using hid)]
    have hmem1 := List.mem_map_of_mem (fun x =>
      if x.user_id == target.user_id && isLive x && x.id != cid
      then ({ x with status := "archived", updated_at := now } : ChatRow) else x) hr
    simp only [harch] at hmem1
    have hmem2 := List.mem_map_of_mem (fun x =>
      if x.id == cid
      then ({ x with
                conversation := conv
                status := st
                updated_at := now } : ChatRow)
      else x) hmem1
    simp only [hupd] at hmem2
    exact hmem2
  · intro r hr hid
    rw [hok]
    show ({ r with conversation := conv, status := st, updated_at := now } : ChatRow) ∈
      ((if isTerminal (if st ∈ validChatStatuses then st else "incomplete")
        then s.rows.map (fun x =>
          if x.user_id == target.user_id && isLive x && x.id != cid
          then { x with status := "archived", updated_at := now } else x)
        else s.rows).map (fun x =>
          if x.id == cid
          then { x with
                   conversation := conv
                   status := if st ∈ validChatStatuses then st else "incomplete"
                   updated_at := now }
          else x))
    rw [hfS, if_pos hterm]
    have hcond : (r.user_id == target.user_id && isLive r && r.id != cid) = false := by
      have : (r.id != cid) = false := by simp [bne, hid]
      simp [this]
    have harch : (if r.user_id == target.user_id && isLive r && r.id != cid
        then ({ r with status := "archived", updated_at := now } : ChatRow) else r) = r := by
      rw [if_neg (by simp [hcond])]
    have hupd : (if r.id == cid
        then ({ r with conversation := conv, status := st, updated_at := now } : ChatRow)
        else r) = { r with conversation := conv, status := st, updated_at := now } := by
      rw [if_pos (by simp [hid])]
    have hmem1 := List.mem_map_of_mem (fun x =>
      if x.user_id == target.user_id && isLive x && x.id != cid
      then ({ x with status := "archived", updated_at := now } : ChatRow) else x) hr
    simp only [harch] at hmem1
    have hmem2 := List.mem_map_of_mem (fun x =>
      if x.id == cid
      then ({ x with
                conversation := conv
                status := st
                updated_at := now } : ChatRow)
      else x) hmem1
    simp only [hupd] at hmem2
    exact hmem2

theorem update_terminal_archives_others_witness :
    let s : ChatStore := ⟨[⟨1, "u1", ["a"], "incomplete", 0, 0⟩,
        ⟨2, "u1", ["b"], "paused", 0, 0⟩], 3⟩
    (updateConversation 1 (some ["c"]) "completed" 5 s).1 =
      .ok (⟨1, "u1", ["c"], "completed", 0, 5⟩, true) ∧
    (⟨2, "u1", ["b"], "archived", 0, 5⟩ : ChatRow) ∈
      (updateConversation 1 (some ["c"]) "completed" 5 s).2.rows ∧
    (⟨1, "u1", ["c"], "completed", 0, 5⟩ : ChatRow) ∈
      (updateConversation 1 (some ["c"]) "completed" 5 s).2.rows := by
  intro s
  have h := update_terminal_archives_others 1 ["c"] "completed" 5 s
    ⟨1, "u1", ["a"], "incomplete", 0, 0⟩ (Or.inl rfl) (by decide)
  refine ⟨h.1, ?_, ?_⟩
  · exact h.2.1 ⟨2, "u1", ["b"], "paused", 0, 0⟩ (by decide) (by decide) rfl (by decide)
  · exact h.2.2 ⟨1, "u1", ["a"], "incomplete", 0, 0⟩ (by decide) rfl

/-- C10: a chat create or update whose status argument lies outside
`{paused, completed, stopped, incomplete}` does not fail validation: the
status is silently coerced to `incomplete`, no archival sweep runs, and
the row is inserted (resp. updated) with status `incomplete`, returning
`shouldStartFresh = false`. -/
theorem invalid_status_coerced_incomplete (st : String)
    (hst : st ∉ validChatStatuses) :
    (∀ (uid : String) (conv : List String) (now : Nat) (s : ChatStore), ¬ uid = "" →
      createChat uid (some conv) (some st) now s =
        (.ok (⟨s.nextId, uid, conv, "incomplete", now, now⟩, false),
         ⟨s.rows ++ [⟨s.nextId, uid, conv, "incomplete", now, now⟩], s.nextId + 1⟩)) ∧
    (∀ (cid : Nat) (conv : List String) (now : Nat) (s : ChatStore) (target : ChatRow),
      s.rows.find? (fun r => r.id == cid) = some target →
      updateConversation cid (some conv) st now s =
        (.ok ({ target with
                  conversation := conv
                  status := "incomplete"
                  updated_at := now }, false),
         { s with rows := s.rows.map (fun r =>
            if r.id == cid
            then { r with
                     conversation := conv
                     status := "incomplete"
                     updated_at := now }
            else r) })) := by
  constructor
  · intro uid conv now s huid
    have hcoe : coerceStatus (some st) = "incomplete" := by
      simp [coerceStatus, hst]
    rw [createChat_ok uid conv (some st) now s huid, hcoe]
    simp [isTerminal]
  · intro cid conv now s target hfind
    have hfS : (if st ∈ validChatStatuses then st else "incomplete") = "incomplete" :=
      if_neg hst
    rw [updateConversation_ok cid conv st now s target hfind, hfS]
    simp [isTerminal]

theorem invalid_status_coerced_incomplete_witness :
    let s : ChatStore := ⟨[⟨1, "u1", ["a"], "paused", 0, 0⟩], 2⟩
    createChat "u1" (some ["m"]) (some "bogus") 3 emptyChatStore =
      (.ok (⟨1, "u1", ["m"], "incomplete", 3, 3⟩, false),
       ⟨[⟨1, "u1", ["m"], "incomplete", 3, 3⟩], 2⟩) ∧
    updateConversation 1 (some ["m"]) "bogus" 3 s =
      (.ok (⟨1, "u1", ["m"], "incomplete", 0, 3⟩, false),
       ⟨[⟨1, "u1", ["m"], "incomplete", 0, 3⟩], 2⟩) := by
  intro s
  have h := invalid_status_coerced_incomplete "bogus" (by decide)
  constructor
  · have h1 := h.1 "u1" ["m"] 3 emptyChatStore (by decide)
    rw [h1]
    rfl
  · have h2 := h.2 1 ["m"] 3 s ⟨1, "u1", ["a"], "paused", 0, 0⟩ (by decide)
    rw [h2]
    rfl

/-! ### Transaction atomicity on error (claim C7) -/

theorem updateTemplateF_cases (fails : Nat → Bool) (u t c : String) (now : Nat)
    (s : TemplateStore) :
    (updateTemplateF fails u t c now s).2 = s ∨
    ∃ x, (updateTemplateF fails u t c now s).1 = .ok x := by
  by_cases h1 : u = "" ∨ t = "" ∨ c = ""
  · left; simp [updateTemplateF, h1]
  · by_cases h2 : t ∉ validTemplateTypes
    · left; simp [updateTemplateF, h1, h2]
    · by_cases f0 : fails 0 = true
      · left; simp [updateTemplateF, h1, h2, f0]
      · by_cases f1 : fails 1 = true
        · left; simp [updateTemplateF, h1, h2, f0, f1]
        · by_cases f2 : fails 2 = true
          · left; simp [updateTemplateF, h1, h2, f0, f1, f2]
          · by_cases f3 : fails 3 = true
            · left; simp [updateTemplateF, h1, h2, f0, f1, f2, f3]
            · by_cases f4 : fails 4 = true
              · left; simp [updateTemplateF, h1, h2, f0, f1, f2, f3, f4]
              · by_cases f5 : fails 5 = true
                · left; simp [updateTemplateF, h1, h2, f0, f1, f2, f3, f4, f5]
                · right
                  exact ⟨⟨s.nextId, tmplMax u t s.rows + 1, now⟩,
                    by simp [updateTemplateF, h1, h2, f0, f1, f2, f3, f4, f5]⟩

theorem restoreTemplateF_cases (fails : Nat → Bool) (u t : String) (v : Nat)
    (s : TemplateStore) :
    (restoreTemplateF fails u t v s).2 = s ∨
    ∃ x, (restoreTemplateF fails u t v s).1 = .ok x := by
  by_cases h1 : u = "" ∨ t = "" ∨ v = 0
  · left; simp [restoreTemplateF, h1]
  · by_cases f0 : fails 0 = true
    · left; simp [restoreTemplateF, h1, f0]
    · by_cases f1 : fails 1 = true
      · left; simp [restoreTemplateF, h1, f0, f1]
      · by_cases hex : (s.rows.filter (hasVersion u t v)).isEmpty = true
        · left; simp [restoreTemplateF, h1, f0, f1, hex]
        · by_cases f2 : fails 2 = true
          · left; simp [restoreTemplateF, h1, f0, f1, hex, f2]
          · by_cases f3 : fails 3 = true
            · left; simp [restoreTemplateF, h1, f0, f1, hex, f2, f3]
            · by_cases f4 : fails 4 = true
              · left; simp [restoreTemplateF, h1, f0, f1, hex, f2, f3, f4]
              · right
                exact ⟨(), by simp [restoreTemplateF, h1, f0, f1, hex, f2, f3, f4]⟩

theorem deleteTemplateF_cases (fails : Nat → Bool) (u t : String) (ver : Option Nat)
    (da : Bool) (s : TemplateStore) :
    (deleteTemplateF fails u t ver da s).2 = s ∨
    ∃ x, (deleteTemplateF fails u t ver da s).1 = .ok x := by
  by_cases h1 : u = "" ∨ t = ""
  · left; simp [deleteTemplateF, h1]
  · by_cases f0 : fails 0 = true
    · left; simp [deleteTemplateF, h1, f0]
    · by_cases f1 : fails 1 = true
      · left; simp [deleteTemplateF, h1, f0, f1]
      · by_cases hlen : (s.rows.filter (matchesDeleteMode u t ver da)).length = 0
        · left; simp [deleteTemplateF, h1, f0, f1, hlen]
        · by_cases f2 : fails 2 = true
          · left; simp [deleteTemplateF, h1, f0, f1, hlen, f2]
          · right
            exact ⟨(s.rows.filter (matchesDeleteMode u t ver da)).length,
              by simp [deleteTemplateF, h1, f0, f1, hlen, f2]⟩

theorem resetToDefaultF_cases (fails : Nat → Bool) (u t : String) (flag : Bool)
    (dc : Option String) (now : Nat) (s : TemplateStore) :
    (resetToDefaultF fails u t flag dc now s).2 = s ∨
    ∃ x, (resetToDefaultF fails u t flag dc now s).1 = .ok x := by
  by_cases hflag : flag = false
  · left; simp [resetToDefaultF, hflag]
  · by_cases h1 : u = "" ∨ t = ""
    · left; simp [resetToDefaultF, hflag, h1]
    · by_cases h2 : t ∉ validTemplateTypes
      · left; simp [resetToDefaultF, hflag, h1, h2]
      · rcases dc with _ | content
        · left; simp [resetToDefaultF, hflag, h1, h2]
        · by_cases f0 : fails 0 = true
          · left; simp [resetToDefaultF, hflag, h1, h2, f0]
          · by_cases f1 : fails 1 = true
            · left; simp [resetToDefaultF, hflag, h1, h2, f0, f1]
            · by_cases hex : (s.rows.filter (isPair u t)).isEmpty = true
              · by_cases f5 : fails 5 = true
                · left; simp [resetToDefaultF, hflag, h1, h2, f0, f1, hex, f5]
                · by_cases f6 : fails 6 = true
                  · left; simp [resetToDefaultF, hflag, h1, h2, f0, f1, hex, f5, f6]
                  · right
                    exact ⟨⟨s.nextId, 1, now⟩,
                      by simp [resetToDefaultF, hflag, h1, h2, f0, f1, hex, f5, f6]⟩
              · by_cases f2 : fails 2 = true
                · left; simp [resetToDefaultF, hflag, h1, h2, f0, f1, hex, f2]
                · by_cases f3 : fails 3 = true
                  · left; simp [resetToDefaultF, hflag, h1, h2, f0, f1, hex, f2, f3]
                  · by_cases f4 : fails 4 = true
                    · left; simp [resetToDefaultF, hflag, h1, h2, f0, f1, hex, f2, f3, f4]
                    · by_cases f5 : fails 5 = true
                      · left
                        simp [resetToDefaultF, hflag, h1, h2, f0, f1, hex, f2, f3, f4, f5]
                      · by_cases f6 : fails 6 = true
                        · left
                          simp [resetToDefaultF, hflag, h1, h2, f0, f1, hex, f2, f3, f4,
                            f5, f6]
                        · right
                          exact ⟨⟨s.nextId, tmplMax u t s.rows + 1, now⟩,
                            by simp [resetToDefaultF, hflag, h1, h2, f0, f1, hex, f2, f3,
                              f4, f5, f6]⟩

theorem createChatF_cases (fails : Nat → Bool) (uid : String)
    (conv : Option (List String)) (st : Option String) (now : Nat) (s : ChatStore) :
    (createChatF fails uid conv st now s).2 = s ∨
    ∃ x, (createChatF fails uid conv st now s).1 = .ok x := by
  rcases conv with _ | c
  · left; rfl
  · by_cases huid : uid = ""
    · left; simp [createChatF, huid]
    · by_cases f0 : fails 0 = true
      · left; simp [createChatF, huid, f0]
      · by_cases g1 : (isTerminal (coerceStatus st) && fails 1) = true
        · left; simp [createChatF, huid, f0, g1]
        · by_cases f2 : fails 2 = true
          · left; simp [createChatF, huid, f0, g1, f2]
          · by_cases f3 : fails 3 = true
            · left; simp [createChatF, huid, f0, g1, f2, f3]
            · right
              exact ⟨(⟨s.nextId, uid, c, coerceStatus st, now, now⟩,
                isTerminal (coerceStatus st)),
                by simp [createChatF, huid, f0, g1, f2, f3]⟩

theorem updateConversationF_cases (fails : Nat → Bool) (cid : Nat)
    (conv : Option (List String)) (st : String) (now : Nat) (s : ChatStore) :
    (updateConversationF fails cid conv st now s).2 = s ∨
    ∃ x, (updateConversationF fails cid conv st now s).1 = .ok x := by
  rcases conv with _ | c
  · left; rfl
  · by_cases f0 : fails 0 = true
    · left; simp [updateConversationF, f0]
    · by_cases f1 : fails 1 = true
      · left; simp [updateConversationF, f0, f1]
      · rcases hf : s.rows.find? (fun r => r.id == cid) with _ | target
        · left; simp [updateConversationF, f0, f1, hf]
        · by_cases g2 : (isTerminal (if st ∈ validChatStatuses then st else "incomplete")
              && fails 2) = true
          · left; simp [updateConversationF, f0, f1, hf, g2]
          · by_cases f3 : fails 3 = true
            · left; simp [updateConversationF, f0, f1, hf, g2, f3]
            · by_cases f4 : fails 4 = true
              · left; simp [updateConversationF, f0, f1, hf, g2, f3, f4]
              · right
                refine ⟨({ target with
                    conversation := c
                    status := if st ∈ validChatStatuses then st else "incomplete"
                    updated_at := now },
                  isTerminal (if st ∈ validChatStatuses then st else "incomplete")), ?_⟩
                simp [updateConversationF, f0, f1, hf, g2, f3, f4]

/-- C7: every multi-statement manager operation — template upsert,
restore, delete and reset, chat create and update — runs inside a single
transaction: whichever numbered statement the failure oracle makes throw
(and on the explicit rollback-and-404 paths), the resulting committed
store equals the store the operation started from. -/
theorem operations_atomic_on_error :
    (∀ (fails : Nat → Bool) (u t c : String) (now : Nat) (s : TemplateStore)
        (e : ApiError), (updateTemplateF fails u t c now s).1 = .error e →
        (updateTemplateF fails u t c now s).2 = s) ∧
    (∀ (fails : Nat → Bool) (u t : String) (v : Nat) (s : TemplateStore)
        (e : ApiError), (restoreTemplateF fails u t v s).1 = .error e →
        (restoreTemplateF fails u t v s).2 = s) ∧
    (∀ (fails : Nat → Bool) (u t : String) (ver : Option Nat) (da : Bool)
        (s : TemplateStore) (e : ApiError),
        (deleteTemplateF fails u t ver da s).1 = .error e →
        (deleteTemplateF fails u t ver da s).2 = s) ∧
    (∀ (fails : Nat → Bool) (u t : String) (flag : Bool) (dc : Option String)
        (now : Nat) (s : TemplateStore) (e : ApiError),
        (resetToDefaultF fails u t flag dc now s).1 = .error e →
        (resetToDefaultF fails u t flag dc now s).2 = s) ∧
    (∀ (fails : Nat → Bool) (uid : String) (conv : Option (List String))
        (st : Option String) (now : Nat) (s : ChatStore) (e : ApiError),
        (createChatF fails uid conv st now s).1 = .error e →
        (createChatF fails uid conv st now s).2 = s) ∧
    (∀ (fails : Nat → Bool) (cid : Nat) (conv : Option (List String))
        (st : String) (now : Nat) (s : ChatStore) (e : ApiError),
        (updateConversationF fails cid conv st now s).1 = .error e →
        (updateConversationF fails cid conv st now s).2 = s) := by
  refine ⟨?_, ?_, ?_, ?_, ?_, ?_⟩
  · intro fails u t c now s e h
    rcases updateTemplateF_cases fails u t c now s with hs | ⟨x, hx⟩
    · exact hs
    · rw [hx] at h; simp at h
  · intro fails u t v s e h
    rcases restoreTemplateF_cases fails u t v s with hs | ⟨x, hx⟩
    · exact hs
    · rw [hx] at h; simp at h
  · intro fails u t ver da s e h
    rcases deleteTemplateF_cases fails u t ver da s with hs | ⟨x, hx⟩
    · exact hs
    · rw [hx] at h; simp at h
  · intro fails u t flag dc now s e h
    rcases resetToDefaultF_cases fails u t flag dc now s with hs | ⟨x, hx⟩
    · exact hs
    · rw [hx] at h; simp at h
  · intro fails uid conv st now s e h
    rcases createChatF_cases fails uid conv st now s with hs | ⟨x, hx⟩
    · exact hs
    · rw [hx] at h; simp at h
  · intro fails cid conv st now s e h
    rcases updateConversationF_cases fails cid conv st now s with hs | ⟨x, hx⟩
    · exact hs
    · rw [hx] at h; simp at h

theorem operations_atomic_on_error_witness :
    (updateTemplateF (fun _ => true) "u" "conceptMentor" "c" 0 emptyTemplateStore).2 =
      emptyTemplateStore ∧
    (restoreTemplateF (fun _ => true) "u" "conceptMentor" 1 emptyTemplateStore).2 =
      emptyTemplateStore ∧
    (deleteTemplateF (fun _ => true) "u" "conceptMentor" none false emptyTemplateStore).2 =
      emptyTemplateStore ∧
    (resetToDefaultF (fun _ => true) "u" "conceptMentor" true (some "d") 0
      emptyTemplateStore).2 = emptyTemplateStore ∧
    (createChatF (fun _ => true) "u1" (some ["x"]) (some "incomplete") 0
      emptyChatStore).2 = emptyChatStore ∧
    (updateConversationF (fun _ => true) 1 (some ["x"]) "incomplete" 0
      emptyChatStore).2 = emptyChatStore :=
  ⟨operations_atomic_on_error.1 (fun _ => true) "u" "conceptMentor" "c" 0
      emptyTemplateStore .storage (by rfl),
   operations_atomic_on_error.2.1 (fun _ => true) "u" "conceptMentor" 1
      emptyTemplateStore .storage (by rfl),
   operations_atomic_on_error.2.2.1 (fun _ => true) "u" "conceptMentor" none false
      emptyTemplateStore .storage (by rfl),
   operations_atomic_on_error.2.2.2.1 (fun _ => true) "u" "conceptMentor" true
      (some "d") 0 emptyTemplateStore .storage (by rfl),
   operations_atomic_on_error.2.2.2.2.1 (fun _ => true) "u1" (some ["x"])
      (some "incomplete") 0 emptyChatStore .storage (by rfl),
   operations_atomic_on_error.2.2.2.2.2 (fun _ => true) 1 (some ["x"]) "incomplete" 0
      emptyChatStore .storage (by rfl)⟩

/-! ### Prompt assembly (claim C9) -/

theorem findClose_append : ∀ (key rest : List Char),
    ¬ '}' ∈ key → (∀ c ∈ key, isJsLineTerminator c = false) →
    findClose (key ++ '}' :: '}' :: rest) = some (key, rest) := by
  intro key
  induction key with
  | nil =>
    intro rest h1 h2
    rw [List.nil_append, findClose.eq_def]
    simp
  | cons a key ih =>
    intro rest h1 h2
    have ha1 : ¬ a = '}' := fun hh => h1 (hh ▸ List.mem_cons_self a key)
    have ha2 : isJsLineTerminator a = false := h2 a (List.mem_cons_self a key)
    have hk1 : ¬ '}' ∈ key := fun hh => h1 (List.mem_cons_of_mem a hh)
    have hk2 : ∀ c ∈ key, isJsLineTerminator c = false :=
      fun c hc => h2 c (List.mem_cons_of_mem a hc)
    have hrec := ih rest hk1 hk2
    cases key with
    | nil =>
      rw [List.cons_append, List.nil_append, findClose.eq_def]
      show (if a = '}' ∧ '}' = '}' then some (([] : List Char), '}' :: rest)
        else if isJsLineTerminator a then none
        else match findClose ('}' :: '}' :: rest) with
          | some (k, r) => some (a :: k, r)
          | none => none) = some ([a], rest)
      rw [if_neg (fun hc => ha1 hc.1), if_neg (by simp [ha2])]
      rw [List.nil_append] at hrec
      rw [hrec]
    | cons b key' =>
      rw [List.cons_append, findClose.eq_def]
      show (if a = '}' ∧ b = '}' then some (([] : List Char), key' ++ '}' :: '}' :: rest)
        else if isJsLineTerminator a then none
        else match findClose (b :: (key' ++ '}' :: '}' :: rest)) with
          | some (k, r) => some (a :: k, r)
          | none => none) = some (a :: b :: key', rest)
      rw [if_neg (fun hc => ha1 hc.1), if_neg (by simp [ha2])]
      rw [List.cons_append] at hrec
      rw [hrec]

theorem rpAux_placeholder (data : String → Option String) (key rest : List Char)
    (h1 : ¬ '}' ∈ key) (h2 : ∀ c ∈ key, isJsLineTerminator c = false) :
    rpAux data ('{' :: '{' :: (key ++ '}' :: '}' :: rest)) =
      lookupData data key ++ rpAux data rest := by
  have hf := findClose_append key rest h1 h2
  rw [rpAux.eq_def]
  simp only []
  rw [if_pos (⟨trivial, trivial⟩ : True ∧ True)]
  split
  next k r heq =>
    rw [hf] at heq
    simp only [Option.some.injEq, Prod.mk.injEq] at heq
    obtain ⟨hk, hr⟩ := heq
    rw [hk, hr]
  next heq =>
    rw [hf] at heq
    simp at heq

/-- C9: placeholder substitution and message assembly of `processPrompt` —
a `{{key}}` placeholder (key free of `}` and of the four ECMAScript line
terminators, as the lazy `.`-based regex requires for a match) is
replaced by the value the variable mapping gives the trimmed key (trim
strips the full JavaScript whitespace set), a missing key substituting
the empty string; in the final message list the `system` slot receives
the substituted content, the `user` slot receives the processed user
input verbatim (empty string allowed), and entries of any other role
pass through unchanged. -/
theorem prompt_assembly_correct :
    (∀ (data : String → Option String) (key rest : List Char),
        ¬ '}' ∈ key → (∀ c ∈ key, isJsLineTerminator c = false) →
        rpAux data ('{' :: '{' :: (key ++ '}' :: '}' :: rest)) =
          lookupData data key ++ rpAux data rest) ∧
    (∀ (data : String → Option String) (key : List Char),
        data (String.mk (jsTrim key)) = none → lookupData data key = []) ∧
    (∀ (tpl : List PromptMsg) (sct : String) (vars : String → Option String)
        (ui : Option String) (i : Nat) (item : PromptMsg),
        tpl[i]? = some item →
        (assembleMessages tpl sct vars ui)[i]? = some (
          if item.role == "system" then
            { role := item.role, content := some (replacePlaceholders sct vars) }
          else if item.role == "user" then
            { role := item.role, content := some (processedInput ui) }
          else item)) := by
  refine ⟨rpAux_placeholder, ?_, ?_⟩
  · intro data key h
    simp [lookupData, h]
  · intro tpl sct vars ui i item hi
    rw [assembleMessages, buildFinalMessages, List.getElem?_map, hi, Option.map_some']

theorem prompt_assembly_correct_witness :
    rpAux (fun k => if k = "name" then some "World" else none)
        ('{' :: '{' :: (['n', 'a', 'm', 'e'] ++ '}' :: '}' :: ['!'])) =
      lookupData (fun k => if k = "name" then some "World" else none) ['n', 'a', 'm', 'e']
        ++ rpAux (fun k => if k = "name" then some "World" else none) ['!'] ∧
    lookupData (fun _ => none) ['m', 'i', 's', 's'] = [] ∧
    (assembleMessages [⟨"system", none⟩, ⟨"user", none⟩, ⟨"assistant", some "keep"⟩]
        "hi \x7b\x7bname\x7d\x7d" (fun k => if k = "name" then some "World" else none)
        (some ""))[1]? =
      some (if (⟨"user", none⟩ : PromptMsg).role == "system" then
          ⟨(⟨"user", none⟩ : PromptMsg).role,
           some (replacePlaceholders "hi \x7b\x7bname\x7d\x7d"
             (fun k => if k = "name" then some "World" else none))⟩
        else if (⟨"user", none⟩ : PromptMsg).role == "user" then
          ⟨(⟨"user", none⟩ : PromptMsg).role, some (processedInput (some ""))⟩
        else ⟨"user", none⟩) :=
  ⟨prompt_assembly_correct.1 (fun k => if k = "name" then some "World" else none)
      ['n', 'a', 'm', 'e'] ['!'] (by decide) (by decide),
   prompt_assembly_correct.2.1 (fun _ => none) ['m', 'i', 's', 's'] rfl,
   prompt_assembly_correct.2.2 [⟨"system", none⟩, ⟨"user", none⟩, ⟨"assistant", some "keep"⟩]
      "hi \x7b\x7bname\x7d\x7d" (fun k => if k = "name" then some "World" else none) (some "")
      1 ⟨"user", none⟩ rfl⟩
